import Mathlib

/-!
Verification of the Autopilot-LoRA-Loader catalog and selection pipeline.

This file gives a shallow embedding, in Lean 4, of the parts of the
repository that the verified properties talk about:

* `src/utils/base_model_mapping.py` (the `BaseModelMapper` class),
* `src/utils/lora_selector.py` (filtering, ranking, resolution),
* `src/utils/utils.py` (string helpers, tolerant JSON loading, ranking),
* `src/utils/lora_catalog.py` (the catalog store and its state machine),
* `src/utils/indexing_llm.py` (extraction-response parsing, `index_with_llm`),
* `src/utils/prompting_llm.py` (selection-response parsing),
* `src/utils/civitai_utils.py` (hash-lookup fetch and its cache).

Conventions of the embedding:

* Python dictionaries holding JSON data are modelled by the inductive
  type `Json`; numbers are modelled by `Rat` (the Python code only
  compares, clamps and stores them - no float-specific behaviour is
  relied upon by any proved statement).
* Python `dict` stores with unique keys (the catalog, the response
  cache) are modelled by insertion-ordered association lists.
* Python statements that can raise are modelled in `Except PyErr`.
* External effects (HTTP requests, file reads, LLM calls, the standard
  library JSON parser) are passed in as explicit function arguments
  (oracles); where a function issues network traffic, the embedding
  additionally returns the list of issued network events so that
  statements about "no network call" can be made.
* `list(set(xs))` in CPython enumerates a hash set in an unspecified
  order; it is modelled by an explicit enumeration function argument
  constrained by `IsSetEnum` (duplicate-free and with exactly the
  members of `xs`).
-/

/-- JSON values as produced by Python's `json.loads`. -/
inductive Json where
  | null : Json
  | bool : Bool → Json
  | num : Rat → Json
  | str : String → Json
  | arr : List Json → Json
  | obj : List (String × Json) → Json

/-- Python exceptions that the embedded code can raise. -/
inductive PyErr where
  | attributeError : String → PyErr
  | typeError : String → PyErr
  | keyError : String → PyErr
deriving DecidableEq

/-- Python truthiness of a JSON value (`if data:`). -/
def truthyJson : Json → Bool
  | .null => false
  | .bool b => b
  | .num q => !(q == 0)
  | .str s => !(s == "")
  | .arr xs => !xs.isEmpty
  | .obj kvs => !kvs.isEmpty

/-- Lookup of a key in a JSON object (`d.get(k)`); `none` when the value
is not an object or the key is absent.  Python dict keys are unique, so
the first match is the binding. -/
def jsonGet : Json → String → Option Json
  | .obj kvs, k => (kvs.find? (fun kv => kv.1 == k)).map (·.2)
  | _, _ => none

/-- Key-presence test on a JSON object (`k in d` for a dict). -/
def jsonHasKey (j : Json) (k : String) : Bool :=
  match j with
  | .obj kvs => kvs.any (fun kv => kv.1 == k)
  | _ => false

/-- Python `d[k] = v` on a JSON object: replaces the binding if the key
is present, otherwise appends it (dict insertion order).  On non-objects
the value is returned unchanged (the embedded call sites only assign
into objects). -/
def jsonSetKey (j : Json) (k : String) (v : Json) : Json :=
  match j with
  | .obj kvs =>
      if kvs.any (fun kv => kv.1 == k) then
        .obj (kvs.map (fun kv => if kv.1 == k then (kv.1, v) else kv))
      else
        .obj (kvs ++ [(k, v)])
  | other => other

/-- Python `d[k]` subscription: a key lookup on objects (raising
`KeyError` when absent) and a `TypeError` on every other value when the
index is a string. -/
def pyGetItem (j : Json) (k : String) : Except PyErr Json :=
  match j with
  | .obj kvs =>
      match kvs.find? (fun kv => kv.1 == k) with
      | some kv => .ok kv.2
      | none => .error (.keyError k)
  | _ => .error (.typeError "indices must be integers")

/-- ASCII lowercasing of one character. -/
def pyLowerChar (c : Char) : Char :=
  if 65 ≤ c.toNat && c.toNat ≤ 90 then Char.ofNat (c.toNat + 32) else c

/-- Python lowercasing (`s.lower()`); the embedded keyword tables are
ASCII, for which ASCII lowercasing agrees with Python. -/
def pyLower (s : String) : String :=
  String.mk (s.toList.map pyLowerChar)

/-- Python `s.strip()` (ASCII whitespace trimming at both ends). -/
def pyStrip (s : String) : String :=
  String.mk (((s.toList.dropWhile Char.isWhitespace).reverse.dropWhile
    Char.isWhitespace).reverse)

/-- Boolean test that `sub` is a leading segment of `l`. -/
def leadsWith : List Char → List Char → Bool
  | [], _ => true
  | _ :: _, [] => false
  | a :: as, b :: bs => a == b && leadsWith as bs

/-- Boolean test that `sub` occurs contiguously inside `l`. -/
def listInfix (sub : List Char) : List Char → Bool
  | [] => sub.isEmpty
  | c :: cs => leadsWith sub (c :: cs) || listInfix sub cs

/-- Python substring containment `needle in hay`. -/
def pyIn (needle hay : String) : Bool :=
  listInfix needle.toList hay.toList

/-- Python `s.startswith(t)`. -/
def headsWith (s t : String) : Bool :=
  leadsWith t.toList s.toList

/-- Python `s.endswith(t)`. -/
def trailsWith (s t : String) : Bool :=
  leadsWith t.toList.reverse s.toList.reverse

/-- Concatenation of string pieces with a separator (Python
`sep.join(parts)`). -/
def joinWith (sep : String) : List String → String
  | [] => ""
  | [x] => x
  | x :: xs => x ++ sep ++ joinWith sep xs

/-- Python slicing `s[:n]`. -/
def pySlice (s : String) (n : Nat) : String :=
  String.mk (s.toList.take n)

/-- Character length of a string, as Python's `len`. -/
def pyLen (s : String) : Nat :=
  s.toList.length

/-- Worker for whitespace splitting: `cur` holds the reversed current
token. -/
def pySplitWsAux (cur : List Char) : List Char → List String
  | [] => if cur.isEmpty then [] else [String.mk cur.reverse]
  | c :: cs =>
      if c.isWhitespace then
        if cur.isEmpty then pySplitWsAux [] cs
        else String.mk cur.reverse :: pySplitWsAux [] cs
      else pySplitWsAux (c :: cur) cs

/-- Python `text.split()` with no arguments: split on whitespace runs,
discarding empty pieces. -/
def pySplitWs (s : String) : List String :=
  pySplitWsAux [] s.toList

/-- The seen-set loop used throughout the source to deduplicate a list
while keeping the first occurrence of every element in order. -/
def pyUniqueAux (seen : List String) : List String → List String
  | [] => []
  | w :: ws =>
      if seen.contains w then pyUniqueAux seen ws
      else w :: pyUniqueAux (w :: seen) ws

/-- Order-preserving deduplication (first occurrence wins). -/
def pyUnique (l : List String) : List String :=
  pyUniqueAux [] l

/-- Validity of an enumeration strategy for `list(set(xs))`: the result
is duplicate-free and has exactly the members of `xs` (CPython fixes no
particular order). -/
def IsSetEnum (enum : List String → List String) : Prop :=
  ∀ xs : List String, (enum xs).Nodup ∧ ∀ a : String, a ∈ enum xs ↔ a ∈ xs

/-- One concrete valid enumeration strategy (first-occurrence order). -/
def dedupEnum (xs : List String) : List String :=
  pyUnique xs

/-!  `src/utils/base_model_mapping.py`  -/

/-- The `BASE_MODELS` table of `base_model_mapping.py`, in source order
(dict insertion order). -/
def BASE_MODELS : List (String × List String) :=
  [ ("Aura Flow", ["aura", "aura flow", "aura-flow", "auraflow"]),
    ("Chroma", ["chroma"]),
    ("CogVideoX", ["cogvideo", "cogvideox", "cog video", "cog video x", "cogvideox-2b", "cogvideox-5b"]),
    ("Flux .1 S", ["flux s", "flux.1 s", "flux-s", "flux.1s", "flux1s", "flux .1 s", "flux schnell"]),
    ("Flux .1 D", ["flux d", "flux.1 d", "flux-d", "flux.1d", "flux1d", "flux .1 d", "flux dev", "flux-dev"]),
    ("Flux .1 Krea", ["flux krea", "flux.1 krea", "flux-krea", "flux.1krea", "flux1krea", "flux .1 krea"]),
    ("Flux .1 Kontext", ["flux kontext", "flux.1 kontext", "flux-kontext", "flux.1kontext", "flux1kontext", "flux .1 kontext"]),
    ("HiDream", ["hidream", "hi dream", "hi-dream"]),
    ("Hunyuan 1", ["hunyuan", "hunyuan 1", "hunyuan1", "hunyuan dit", "hunyuan-dit", "hunyuandit"]),
    ("Hunyuan Video", ["hunyuan video", "hunyuan-video", "hunyuanvideo"]),
    ("Illustrious", ["illustrious"]),
    ("Kolors", ["kolors", "kolor"]),
    ("LTXV", ["ltx", "ltxv", "ltx video", "ltx-video", "ltxvideo"]),
    ("Lumina", ["lumina", "lumina-text2img"]),
    ("Mochi", ["mochi", "mochi 1", "mochi1"]),
    ("NoobAI", ["noobai", "noob ai", "noob-ai"]),
    ("Other", ["other", "unknown", "custom"]),
    ("PixArt α", ["pixart", "pix art", "pix-art", "pixart-alpha", "pixart alpha", "pixartα"]),
    ("PixArt Σ", ["pixart sigma", "pixart-sigma", "pixartσ", "pixart σ"]),
    ("Pony V6", ["pony", "pony diffusion", "pony-diffusion", "pony v6", "ponyv6", "pony-v6", "pony diffusion v6"]),
    ("Pony V7", ["pony v7", "ponyv7", "pony-v7", "pony diffusion v7"]),
    ("Qwen Image", ["qwen", "qwen image", "qwen-image", "qwen2-image", "qwen-vl", "qwen-vl", "qwen image"]),
    ("Qwen-Image-Edit", ["qwen image edit", "qwen-image-edit", "qwenimageedit", "qwen-edit", "qwen edit"]),
    ("SD 1.4", ["sd 1.4", "sd1.4", "sd14", "stable diffusion 1.4", "stablediffusion 1.4"]),
    ("SD 1.5", ["sd 1.5", "sd1.5", "sd15", "stable diffusion 1.5", "stablediffusion 1.5", "sd 1.5 base"]),
    ("SD 1.5 LCM", ["sd 1.5 lcm", "sd1.5 lcm", "sd15 lcm", "sd1.5lcm", "sd 1.5-lcm"]),
    ("SD 1.5 Hyper", ["sd 1.5 hyper", "sd1.5 hyper", "sd15 hyper", "sd1.5hyper", "sd 1.5-hyper"]),
    ("SD 2.0", ["sd 2", "sd2", "sd 2.0", "sd2.0", "sd20", "stable diffusion 2", "stable diffusion 2.0"]),
    ("SD 2.1", ["sd 2.1", "sd2.1", "sd21", "stable diffusion 2.1", "stablediffusion 2.1"]),
    ("SDXL 1.0", ["sdxl", "sd xl", "sd-xl", "sdxl 1.0", "sdxl1.0", "stable diffusion xl", "stable diffusion xl 1.0"]),
    ("SDXL Lightning", ["sdxl lightning", "sdxl-lightning", "sdxl lightning 1.0"]),
    ("SDXL Hyper", ["sdxl hyper", "sdxl-hyper", "sdxl turbo", "sdxl-turbo"]),
    ("Wan 1.3B t2v", ["wan 1.3b", "wan1.3b", "wan 1.3b t2v", "wan-1.3b", "wan-1.3b-t2v", "wan video 1.3b"]),
    ("Wan 2.1 14B t2v", ["wan 1.4b", "wan1.4b", "wan 14b", "wan14b", "wan-14b", "wan-1.4b", "wan video 14b", "wan video 1.4b"]),
    ("Wan 2.1 14B i2v 480p", ["wan 1.4b 480p", "wan 14b 480p", "wan14b 480p", "wan-14b-480p", "wan 1.4b i2v 480p"]),
    ("Wan 2.1 14B i2v 720p", ["wan 1.4b 720p", "wan 14b 720p", "wan14b 720p", "wan-14b-720p", "wan 1.4b i2v 720p"]),
    ("Wan 2.2 TI2V-5B", ["wan 2.2 5b", "wan2.2-5b", "wan 2.2 ti2v", "wan-2.2-ti2v-5b", "wan 2.2 text-image 5b"]),
    ("Wan 2.2 I2V-A14B", ["wan 2.2 i2v", "wan2.2 i2v", "wan-2.2-i2v", "wan 2.2 i2v a14b", "wan 2.2 14b"]),
    ("Wan 2.2 T2V-A14B", ["wan 2.2 t2v a14b", "wan2.2 t2v a14b", "wan 2.2 t2v 14b"]),
    ("Wan 2.5 T2V", ["wan 2.5", "wan2.5", "wan 2.5 t2v", "wan-2.5", "wan-2.5-t2v", "wan 2.5 text"]),
    ("Wan 2.5 I2V", ["wan 2.5 i2v", "wan2.5 i2v", "wan-2.5-i2v", "wan 2.5 image"]) ]

/-- The reverse lookup `name_to_model` built in `BaseModelMapper.__init__`:
later bindings overwrite earlier ones, so a lookup finds the last model
whose alias list mentions the (lowercased) name. -/
def nameToModel (clean : String) : Option String :=
  (BASE_MODELS.reverse.find?
    (fun mk => (mk.2.map pyLower).contains clean)).map (·.1)

/-- `BaseModelMapper.normalize_to_model`: direct alias lookup, then a
fuzzy pass accepting the first model (in table order) one of whose
keywords occurs inside the cleaned name, else the sentinel `Other`. -/
def normalizeToModel (baseModelName : String) : String :=
  if baseModelName == "" then "Other"
  else
    let cleanName := pyLower (pyStrip baseModelName)
    match nameToModel cleanName with
    | some m => m
    | none =>
        match BASE_MODELS.find?
          (fun mk => mk.2.any (fun keyword => pyIn keyword cleanName)) with
        | some mk => mk.1
        | none => "Other"

/-- `BaseModelMapper.is_compatible`: false on an empty list, otherwise
exact membership of the target model in the entry's list. -/
def isCompatible (loraModels : List String) (targetModel : String) : Bool :=
  if loraModels.isEmpty then false
  else loraModels.contains targetModel

/-!  Data model: catalog entries (`src/utils/lora_catalog.py`).  -/

/-- One gallery image record as stored under an entry's `images` key and
consumed by `prepare_gallery_images` (url, prompt, negative prompt and
the optional cached local path). -/
structure GalleryImage where
  url : String
  prompt : Option String
  negative_prompt : Option String
  local_path : Option String

/-- A catalog entry.  The fields are the dictionary keys written by
`index_lora_basic` and mutated by the other catalog methods; `get`
defaults used by readers (`enabled`, `available`, `is_character`) are
realized as the corresponding field values. -/
structure Entry where
  file : String
  full_path : String
  display_name : String
  sha256 : String
  file_hash : String
  available : Bool
  summary : String
  trained_words : List String
  tags : List String
  enabled : Bool
  is_character : Bool
  base_compat : List String
  default_weight : Rat
  source_kind : String
  source_url : Option String
  source_version_id : Option Rat
  indexed_at : String
  indexed_by_llm : Bool
  indexing_attempted : Bool
  safetensors_metadata : Bool
  civitai_data : Option Json
  civitai_text : Option String
  images : Option (List GalleryImage)

/-- The persistent catalog map `contentId -> entry`, modelled as an
insertion-ordered association list with unique keys (a Python dict). -/
abbrev Catalog := List (String × Entry)

/-- Membership test `file_hash in self.catalog`. -/
def catMem (c : Catalog) (h : String) : Bool :=
  (c : List (String × Entry)).any (fun kv => kv.1 == h)

/-- Dict lookup `self.catalog[file_hash]` (first binding of the key). -/
def catGet (c : Catalog) (h : String) : Option Entry :=
  ((c : List (String × Entry)).find? (fun kv => kv.1 == h)).map (·.2)

/-- In-place mutation of the entry stored under a key: every binding of
the key is rewritten (a Python dict holds exactly one). -/
def catUpdate : Catalog → String → (Entry → Entry) → Catalog
  | [], _, _ => []
  | kv :: rest, h, f =>
      (if kv.1 == h then (kv.1, f kv.2) else kv) :: catUpdate rest h f

/-!  `src/utils/lora_selector.py` and the ranking helpers of
`src/utils/utils.py`.  -/

/-- `filter_by_base_model` of `lora_selector.py`: keeps the entries
whose `base_compat` list is compatible with the target family under
`BaseModelMapper.is_compatible`. -/
def filterByBaseModel (catalogEntries : List Entry) (baseModelFamily : String) :
    List Entry :=
  catalogEntries.filter (fun entry => isCompatible entry.base_compat baseModelFamily)

/-- The allow-list normalization: a missing `.safetensors` extension is
appended onto bare names (the Python code collects these into a set;
only membership is ever used). -/
def normalizeAllowlist (allowlist : List String) : List String :=
  allowlist.map (fun name =>
    if trailsWith name ".safetensors" then name else name ++ ".safetensors")

/-- `filter_by_allowlist`: a no-op on an empty allow-list, otherwise an
exact filename-membership filter against the normalized allow-list. -/
def filterByAllowlist (catalogEntries : List Entry) (allowlist : List String) :
    List Entry :=
  if allowlist.isEmpty then catalogEntries
  else
    catalogEntries.filter (fun entry => (normalizeAllowlist allowlist).contains entry.file)

/-- `filter_non_character`: drops the entries flagged `is_character`. -/
def filterNonCharacter (catalogEntries : List Entry) : List Entry :=
  catalogEntries.filter (fun entry => !entry.is_character)

/-- The searchable text built by `rank_candidates_by_relevance`: display
name, summary, trigger words and tags joined by single spaces. -/
def searchableText (candidate : Entry) : String :=
  joinWith " "
    [ candidate.display_name,
      candidate.summary,
      joinWith " " candidate.trained_words,
      joinWith " " candidate.tags ]

/-- `fuzzy_token_overlap` of `utils.py`: Jaccard similarity of the two
lowercase whitespace-token sets, zero when either set is empty. -/
def fuzzyTokenOverlap (text1 text2 : String) : Rat :=
  let tokens1 := pyUnique (pySplitWs (pyLower text1))
  let tokens2 := pyUnique (pySplitWs (pyLower text2))
  if tokens1.isEmpty || tokens2.isEmpty then 0
  else
    let intersection := (tokens1.filter (fun t => tokens2.contains t)).length
    let union := (pyUnique (tokens1 ++ tokens2)).length
    if union == 0 then 0
    else (intersection : Rat) / (union : Rat)

/-- Relevance score of one candidate against the free text. -/
def relevanceScore (baseContext : String) (candidate : Entry) : Rat :=
  fuzzyTokenOverlap baseContext (searchableText candidate)

/-- `rank_candidates_by_relevance`: score every candidate, then a stable
sort by descending score (Python's `list.sort` with `reverse=True` is
stable; `List.insertionSort` with this comparison produces the same
ordering). -/
def rankCandidatesByRelevance (baseContext : String) (candidates : List Entry) :
    List Entry :=
  let scored := candidates.map (fun c => (relevanceScore baseContext c, c))
  (scored.insertionSort (fun a b => a.1 ≥ b.1)).map (·.2)

/-- `get_candidates_for_autoselect`: family filter, then (when the
allow-list is non-empty) the allow-list filter, then the character
exclusion, then relevance ranking, truncated to `max_candidates`. -/
def getCandidatesForAutoselect (catalogEntries : List Entry)
    (baseModelFamily : String) (allowlist : List String)
    (baseContext : String) (maxCandidates : Nat) : List Entry :=
  let candidates := filterByBaseModel catalogEntries baseModelFamily
  let candidates := if allowlist.isEmpty then candidates
    else filterByAllowlist candidates allowlist
  let candidates := filterNonCharacter candidates
  let candidates := rankCandidatesByRelevance baseContext candidates
  candidates.take maxCandidates

/-- One selection record handed back by the prompting LLM layer (a dict
with a `name` and a `used_triggers` list). -/
structure SelEntry where
  name : String
  used_triggers : List String

/-- The filename-keyed lookup dict of `resolve_selected_loras_from_llm`:
the dict comprehension keeps the last entry per filename. -/
def catalogByFile (catalogEntries : List Entry) (name : String) : Option Entry :=
  catalogEntries.reverse.find? (fun entry => entry.file == name)

/-- `resolve_selected_loras_from_llm`: exact-name lookup of each chosen
name against the candidate pool; unresolved names contribute nothing. -/
def resolveSelectedLorasFromLLM (llmSelection : List SelEntry)
    (catalogEntries : List Entry) : List Entry :=
  llmSelection.filterMap (fun selected => catalogByFile catalogEntries selected.name)

/-- Modelled from the spec: the claim of C2 composes a family filter,
an allow-list filter, a disabled-entry exclusion (rather than the
character exclusion found in the source), relevance ranking and
truncation.  This definition follows the claim's words for comparison
against `getCandidatesForAutoselect`. -/
def specGetCandidates (catalogEntries : List Entry) (baseModelFamily : String)
    (allowlist : List String) (baseContext : String) (maxCandidates : Nat) :
    List Entry :=
  let candidates := filterByBaseModel catalogEntries baseModelFamily
  let candidates := if allowlist.isEmpty then candidates
    else filterByAllowlist candidates allowlist
  let candidates := candidates.filter (fun entry => entry.enabled)
  let candidates := rankCandidatesByRelevance baseContext candidates
  candidates.take maxCandidates

/-- Modelled from the spec: claim C5's compatibility rule accepts exact
membership plus closely related versioned sub-families of the same
lineage.  The spec names no concrete pairs, so the rule is instantiated
minimally with two same-lineage sub-family pairs from the classifier's
own taxonomy (`SDXL 1.0`/`SDXL Lightning` and `SD 1.5`/`SD 1.5 Hyper`). -/
def specCrossCompatible (a b : String) : Bool :=
  (a == "SDXL 1.0" && b == "SDXL Lightning") ||
  (a == "SDXL Lightning" && b == "SDXL 1.0") ||
  (a == "SD 1.5" && b == "SD 1.5 Hyper") ||
  (a == "SD 1.5 Hyper" && b == "SD 1.5")

/-- Modelled from the spec: claim C5's family filter, keeping entries
accepted by exact membership or by the cross-compatibility rule. -/
def specFilterByFamily (catalogEntries : List Entry) (targetFamily : String) :
    List Entry :=
  catalogEntries.filter (fun entry =>
    entry.base_compat.contains targetFamily ||
    entry.base_compat.any (fun fam => specCrossCompatible fam targetFamily))

/-!  The catalog state machine (`src/utils/lora_catalog.py`).  -/

/-- `normalize_lora_name` of `utils.py`: drop a `.safetensors` extension
and turn underscores into spaces. -/
def normalizeLoraName (filename : String) : String :=
  let name := if trailsWith filename ".safetensors"
    then String.mk (filename.toList.take (filename.toList.length - 12))
    else filename
  String.mk (name.toList.map (fun c => if c == '_' then ' ' else c))

/-- Python `max` on two numbers. -/
def pyMax (a b : Rat) : Rat :=
  if b ≤ a then a else b

/-- Python `min` on two numbers. -/
def pyMin (a b : Rat) : Rat :=
  if a ≤ b then a else b

/-- Clamping into the `[0.2, 2.0]` strength range, as written in
`mark_llm_indexed` and `parse_indexing_response`. -/
def clampStrength (s : Rat) : Rat :=
  pyMax 0.2 (pyMin 2.0 s)

/-- Python `round(x, 4)` modelled on rationals (ties differ from
CPython's bankers rounding only at exact half-ulp values, which no
statement below depends on). -/
def roundTo4 (x : Rat) : Rat :=
  (round (x * 10000) : Int) / 10000

/-- `mark_llm_indexed`: a no-op when the hash is absent; otherwise
replaces the summary and tags, sets both indexing flags, merges the
trained words (the existing words pass through a Python `set`, whence
the explicit enumeration strategy `enum`), conditionally replaces
`base_compat` and clamps the recommended strength into the default
weight. -/
def markLLMIndexed (enum : List String → List String) (c : Catalog)
    (fileHash summary : String) (trainedWords tags baseCompat : List String)
    (recommendedStrength : Option Rat) : Catalog :=
  if !catMem c fileHash then c
  else
    catUpdate c fileHash (fun entry =>
      let existingWords := entry.trained_words
      let allWords := enum existingWords ++
        trainedWords.filter (fun w => !existingWords.contains w)
      { entry with
        summary := summary
        indexed_by_llm := true
        indexing_attempted := true
        trained_words := allWords
        tags := tags
        base_compat :=
          if !baseCompat.isEmpty && !(baseCompat == ["Other"]) then baseCompat
          else entry.base_compat
        default_weight :=
          match recommendedStrength with
          | some s => roundTo4 (clampStrength s)
          | none => entry.default_weight })

/-- `mark_indexing_attempted`: a no-op when the hash is absent,
otherwise sets only the `indexing_attempted` flag. -/
def markIndexingAttempted (c : Catalog) (fileHash : String) : Catalog :=
  if !catMem c fileHash then c
  else catUpdate c fileHash (fun entry => { entry with indexing_attempted := true })

/-- The result of `parse_safetensors_file` as consumed by
`index_lora_basic` (the on-disk metadata reader is an external
collaborator; its output dictionary is passed in). -/
structure SafetensorsData where
  metadata : Bool
  trained_words : List String
  base_model : Option String
  recommended_weight : Option Rat

/-- The view of a successful registry payload that `index_lora_basic`
consumes: the raw payload, the extraction result of
`extract_civitai_metadata` and the flattened summary text of
`build_civitai_summary_text` (both of the latter are RegistryClient
transformations of the same payload and are passed in alongside it). -/
structure CivView where
  raw : Json
  display_name : Option String
  trained_words : List String
  tags : List String
  base_model : Option String
  civitai_url : Option String
  version_id : Option Rat
  images : List GalleryImage
  summary_text : String

/-- A LoRA file on disk, as seen by `index_lora_basic` (name and full
path; the streamed content digest is the `fileHash` argument below,
computed by the ContentHasher collaborator). -/
structure FileRef where
  name : String
  path : String

/-- `index_lora_basic`.  When the hash is already catalogued only the
availability flag and stored path are refreshed.  Otherwise a fresh
entry is built: defaults, then the safetensors merge (trigger words,
base model, recommended weight under Python truthiness), then the
registry merge when a payload without an `error` key is available
(display name, deduplicated trigger words with registry words first,
tags, base model, raw payload, summary text, urls, images).  The new
entry is appended to the catalog and the hash returned. -/
def indexLoraBasic (c : Catalog) (file : FileRef) (fileHash : String)
    (st : SafetensorsData) (civ : Option Json) (civView : Option CivView)
    (now : String) : String × Catalog :=
  if catMem c fileHash then
    (fileHash, catUpdate c fileHash (fun entry =>
      { entry with available := true, full_path := file.path }))
  else
    let entry : Entry :=
      { file := file.name
        full_path := file.path
        display_name := normalizeLoraName file.name
        sha256 := fileHash
        file_hash := fileHash
        available := true
        summary := ""
        trained_words := []
        tags := []
        enabled := true
        is_character := false
        base_compat := ["Other"]
        default_weight := 1
        source_kind := "unknown"
        source_url := none
        source_version_id := none
        indexed_at := now
        indexed_by_llm := false
        indexing_attempted := false
        safetensors_metadata := false
        civitai_data := none
        civitai_text := none
        images := none }
    let entry :=
      if st.metadata then
        let entry := { entry with safetensors_metadata := true }
        let entry :=
          if !st.trained_words.isEmpty then
            { entry with trained_words := entry.trained_words ++ st.trained_words }
          else entry
        let entry :=
          match st.base_model with
          | some bm =>
              if !(bm == "") then
                let baseModel := normalizeToModel bm
                if !(baseModel == "Other") then { entry with base_compat := [baseModel] }
                else entry
              else entry
          | none => entry
        let entry :=
          match st.recommended_weight with
          | some w => if !(w == 0) then { entry with default_weight := w } else entry
          | none => entry
        entry
      else entry
    let entry :=
      match civ, civView with
      | some civData, some view =>
          if truthyJson civData && !jsonHasKey civData "error" then
            let entry := { entry with source_kind := "civitai" }
            let entry :=
              match view.display_name with
              | some d => if !(d == "") then { entry with display_name := d } else entry
              | none => entry
            let entry :=
              if !view.trained_words.isEmpty then
                let allWords := view.trained_words ++ entry.trained_words
                { entry with trained_words := pyUnique allWords }
              else entry
            let entry :=
              if !view.tags.isEmpty then { entry with tags := view.tags } else entry
            let entry :=
              match view.base_model with
              | some bm =>
                  if !(bm == "") then
                    let baseModel := normalizeToModel bm
                    if !(baseModel == "Other") then
                      { entry with base_compat := [baseModel] }
                    else entry
                  else entry
              | none => entry
            let entry := { entry with
              civitai_data := some civData
              civitai_text := some view.summary_text }
            let entry :=
              match view.civitai_url with
              | some u => if !(u == "") then { entry with source_url := some u } else entry
              | none => entry
            let entry :=
              match view.version_id with
              | some v => if !(v == 0) then { entry with source_version_id := some v }
                  else entry
              | none => entry
            let entry :=
              if !view.images.isEmpty then { entry with images := some view.images }
              else entry
            entry
          else { entry with source_kind := "unknown" }
      | _, _ => { entry with source_kind := "unknown" }
    (fileHash, c ++ [(fileHash, entry)])

/-!  Tolerant JSON loading (`safe_json_loads` of `utils.py`).  The
standard-library parser `json.loads` is an external collaborator and is
passed in as `jloads` (returning `none` where it would raise). -/

/-- First index at or after `start` where `sub` occurs in `hay`
(Python `hay.find(sub, start)`, with `none` for `-1`). -/
def strFindFrom (hay sub : String) (start : Nat) : Option Nat :=
  let rec go (l : List Char) (i : Nat) : Option Nat :=
    match l with
    | [] => if leadsWith sub.toList [] then some i else none
    | _ :: rest => if leadsWith sub.toList l then some i else go rest (i + 1)
  let tail := hay.toList.drop start
  if start > hay.toList.length then none
  else (go tail start)

/-- First index of a character (Python `s.find(c)`). -/
def charFindFirst (s : String) (c : Char) : Option Nat :=
  (s.toList.findIdx? (fun d => d == c))

/-- Last index of a character (Python `s.rfind(c)`). -/
def charFindLast (s : String) (c : Char) : Option Nat :=
  match (s.toList.reverse.findIdx? (fun d => d == c)) with
  | some i => some (s.toList.length - 1 - i)
  | none => none

/-- Python slicing `s[a:b]`. -/
def sliceFromTo (s : String) (a b : Nat) : String :=
  String.mk ((s.toList.drop a).take (b - a))

/-- `safe_json_loads`: direct parse, then extraction from a fenced
```json block, then a first-brace/last-brace scan; `none` when all
strategies fail. -/
def safeJsonLoads (jloads : String → Option Json) (text : String) : Option Json :=
  match jloads text with
  | some d => some d
  | none =>
      let fenced : Option Json :=
        if pyIn "```json" text then
          match strFindFrom text "```json" 0 with
          | some p =>
              let start := p + 7
              match strFindFrom text "```" start with
              | some stop => jloads (pyStrip (sliceFromTo text start stop))
              | none => none
          | none => none
        else none
      match fenced with
      | some d => some d
      | none =>
          match charFindFirst text '{', charFindLast text '}' with
          | some a, some b => jloads (sliceFromTo text a (b + 1))
          | _, _ => none

/-!  Schema validation (`validate_json_schema` of `utils.py`).  -/

/-- Python `field not in data`, negated: membership of a string in an
arbitrary value - key membership for dicts, element equality for lists,
substring for strings, and a `TypeError` otherwise. -/
def pyInData (f : String) (data : Json) : Except PyErr Bool :=
  match data with
  | .obj kvs => .ok (kvs.any (fun kv => kv.1 == f))
  | .arr xs => .ok (xs.any (fun x => match x with | .str s => s == f | _ => false))
  | .str s => .ok (pyIn f s)
  | _ => .error (.typeError "argument is not iterable")

/-- The missing-field collection loop of `validate_json_schema`. -/
def collectMissing (data : Json) : List String → Except PyErr (List String)
  | [] => .ok []
  | f :: fs =>
      match pyInData f data with
      | .error e => .error e
      | .ok present =>
          match collectMissing data fs with
          | .error e => .error e
          | .ok rest => .ok (if present then rest else f :: rest)

/-- `validate_json_schema`: valid when no required field is missing,
with the human-readable error message of the source. -/
def validateJsonSchema (data : Json) (requiredFields : List String) :
    Except PyErr (Bool × String) :=
  match collectMissing data requiredFields with
  | .error e => .error e
  | .ok missing =>
      if missing.isEmpty then .ok (true, "")
      else .ok (false, "Missing required fields: " ++ joinWith ", " missing)

/-!  Extraction-response parsing (`parse_indexing_response` of
`src/utils/indexing_llm.py`).  -/

/-- The validated extraction result. -/
structure IndexingResult where
  summary : String
  trainedWords : List String
  tags : List String
  recommendedStrength : Rat

/-- Decimal parsing for Python `float(s)` on the string shapes the
code can meet (optional sign, digits with at most one point; exotic
literals such as exponents or `inf` are treated as unparseable, which
only widens the `except` branch that defaults to `1.0`). -/
def parseFloatStr (s : String) : Option Rat :=
  let cs := s.toList
  let signRest : Bool × List Char :=
    match cs with
    | '-' :: r => (true, r)
    | '+' :: r => (false, r)
    | r => (false, r)
  let neg := signRest.1
  let body := signRest.2
  let ip := body.takeWhile (fun c => !(c == '.'))
  let rest := body.dropWhile (fun c => !(c == '.'))
  let fp := match rest with
    | '.' :: r => r
    | r => r
  if rest.length > 0 && fp.any (fun c => c == '.') then none
  else
    let digits := ip ++ fp
    if digits.isEmpty || !digits.all Char.isDigit then none
    else
      let n : Nat := digits.foldl (fun a c => a * 10 + (c.toNat - 48)) 0
      let q : Rat := (n : Rat) / ((10 : Rat) ^ fp.length)
      some (if neg then -q else q)

/-- Python `float(str(raw).strip())` on a JSON value, `none` where it
raises: numbers pass through, numeric strings are parsed, and the
`str()` image of every other value fails to parse. -/
def pyFloatOfJson : Json → Option Rat
  | .num q => some q
  | .str s => parseFloatStr (pyStrip s)
  | _ => none

/-- The field list `INDEXING_SCHEMA_FIELDS`. -/
def INDEXING_SCHEMA_FIELDS : List String :=
  ["summary", "trainedWords", "tags", "recommendedStrength"]

/-- `parse_indexing_response`: tolerant parse, falsiness check, schema
validation, per-field type checks, strength conversion with a `1.0`
fallback and clamping, then normalization (stripped truncated summary,
stripped non-empty string trigger words, stripped lowercased non-empty
string tags capped at 15). -/
def parseIndexingResponse (jloads : String → Option Json) (responseText : String) :
    Except PyErr (Option IndexingResult) :=
  match safeJsonLoads jloads responseText with
  | none => .ok none
  | some data =>
    if !truthyJson data then .ok none
    else
      match validateJsonSchema data INDEXING_SCHEMA_FIELDS with
      | .error e => .error e
      | .ok validation =>
          if !validation.1 then .ok none
          else
            match pyGetItem data "summary" with
            | .error e => .error e
            | .ok (.str summary) =>
                match pyGetItem data "trainedWords" with
                | .error e => .error e
                | .ok (.arr trainedRaw) =>
                    match pyGetItem data "tags" with
                    | .error e => .error e
                    | .ok (.arr tagsRaw) =>
                        match pyGetItem data "recommendedStrength" with
                        | .error e => .error e
                        | .ok recommendedJ =>
                            let recommendedValue :=
                              match pyFloatOfJson recommendedJ with
                              | some v => v
                              | none => 1
                            .ok (some
                              { summary := pySlice (pyStrip summary) 400
                                trainedWords := trainedRaw.filterMap (fun w =>
                                  match w with
                                  | .str s =>
                                      if !(pyStrip s == "") then some (pyStrip s)
                                      else none
                                  | _ => none)
                                tags := (tagsRaw.filterMap (fun t =>
                                  match t with
                                  | .str s =>
                                      if !(pyStrip s == "") then
                                        some (pyLower (pyStrip s))
                                      else none
                                  | _ => none)).take 15
                                recommendedStrength :=
                                  clampStrength recommendedValue })
                    | .ok _ => .ok none
                | .ok _ => .ok none
            | .ok _ => .ok none

/-!  Selection-response parsing (`parse_prompting_response` of
`src/utils/prompting_llm.py`).  -/

/-- The validated selection result. -/
structure PromptingResult where
  prompt : String
  negative_prompt : String
  selected_loras : List SelEntry

/-- Python `x.strip()` as an attribute access: succeeds on strings and
raises `AttributeError` on every other value. -/
def pyStripAttr : Json → Except PyErr String
  | .str s => .ok (pyStrip s)
  | _ => .error (.attributeError "strip")

/-- The `selected_loras` validation loop of `parse_prompting_response`:
non-dict elements and dicts without a `name` key are skipped; for the
rest the name is stripped (raising when it is not a string) and the
`used_triggers` value is kept when it is a list, keeping its stripped
string elements. -/
def buildSelectedLoras : List Json → Except PyErr (List SelEntry)
  | [] => .ok []
  | lora :: rest =>
      match lora with
      | .obj kvs =>
          if !(kvs.any (fun kv => kv.1 == "name")) then buildSelectedLoras rest
          else
            match pyGetItem lora "name" with
            | .error e => .error e
            | .ok nameJ =>
                match pyStripAttr nameJ with
                | .error e => .error e
                | .ok name =>
                    let triggers :=
                      match jsonGet lora "used_triggers" with
                      | some (.arr ts) => ts.filterMap (fun t =>
                          match t with
                          | .str s => some (pyStrip s)
                          | _ => none)
                      | _ => []
                    match buildSelectedLoras rest with
                    | .error e => .error e
                    | .ok restEntries =>
                        .ok ({ name := name, used_triggers := triggers }
                          :: restEntries)
      | _ => buildSelectedLoras rest

/-- The field list `PROMPTING_SCHEMA_FIELDS`. -/
def PROMPTING_SCHEMA_FIELDS : List String :=
  ["prompt", "selected_loras"]

/-- `parse_prompting_response`: tolerant parse, falsiness check, schema
validation, type checks on `prompt` and `selected_loras`, the optional
`negative_prompt`, then the per-entry validation loop. -/
def parsePromptingResponse (jloads : String → Option Json) (responseText : String) :
    Except PyErr (Option PromptingResult) :=
  match safeJsonLoads jloads responseText with
  | none => .ok none
  | some data =>
    if !truthyJson data then .ok none
    else
      match validateJsonSchema data PROMPTING_SCHEMA_FIELDS with
      | .error e => .error e
      | .ok validation =>
          if !validation.1 then .ok none
          else
            match pyGetItem data "prompt" with
            | .error e => .error e
            | .ok (.str prompt) =>
                match pyGetItem data "selected_loras" with
                | .error e => .error e
                | .ok (.arr selRaw) =>
                    let negativeValue :=
                      match jsonGet data "negative_prompt" with
                      | some (.str s) => pyStrip s
                      | some _ => ""
                      | none => ""
                    match buildSelectedLoras selRaw with
                    | .error e => .error e
                    | .ok selected =>
                        .ok (some
                          { prompt := pyStrip prompt
                            negative_prompt := negativeValue
                            selected_loras := selected })
                | .ok _ => .ok none
            | .ok _ => .ok none

/-!  The registry fetch and its cache (`src/utils/civitai_utils.py`).
HTTP requests go through the oracle `net`; every embedded request
appends its URL to the returned trace, so "no network request" is the
trace being empty.  Retry and backoff inside
`_request_json_with_retries` only repeat the same request on HTTP 429
or transport errors and are folded into the oracle's outcome. -/

/-- Outcome of one HTTP GET as classified by
`_request_json_with_retries`: a 200 with a JSON body, a 404, or any
other failure (non-404 status or exhausted retries). -/
inductive NetResp where
  | ok : Json → NetResp
  | notFound : NetResp
  | err : NetResp

/-- The on-disk response cache, keyed by the hash without its scheme
tag (one JSON file per identifier). -/
abbrev CivCache := List (String × Json)

/-- The API base URL. -/
def CIVITAI_API_BASE : String := "https://civitai.com/api/v1"

/-- Removal of a leading `sha256:` tag. -/
def stripShaTag (h : String) : String :=
  if headsWith h "sha256:" then String.mk (h.toList.drop 7) else h

/-- `get_cached_civitai_data`: strip the tag and read the per-hash
cache file. -/
def getCachedCivitaiData (cache : CivCache) (shaHash : String) : Option Json :=
  let h := stripShaTag shaHash
  (cache.find? (fun kv => kv.1 == h)).map (·.2)

/-- `save_civitai_cache`: strip the tag and (over)write the per-hash
cache file. -/
def saveCivitaiCache (cache : CivCache) (shaHash : String) (data : Json) : CivCache :=
  let h := stripShaTag shaHash
  if cache.any (fun kv => kv.1 == h) then
    cache.map (fun kv => if kv.1 == h then (h, data) else kv)
  else cache ++ [(h, data)]

/-- Truthiness of an optional JSON value (`if x:` where `x` may be
`None`). -/
def truthyOpt (o : Option Json) : Bool :=
  match o with
  | some j => truthyJson j
  | none => false

/-- Python `str()` of a JSON id value as interpolated into an URL
(identifiers are integers in practice). -/
def jsonIdString : Json → String
  | .num q => if q.den == 1 then toString q.num else toString q.num ++ "e" ++ toString q.den
  | .str s => s
  | .bool b => if b then "True" else "False"
  | .null => "None"
  | _ => ""

/-- The permanent not-found marker cached on a 404. -/
def notFoundMarker (h : String) : Json :=
  .obj [("error", .str "not_found"), ("hash", .str h)]

/-- `fetch_civitai_by_hash`: cache-first; on a truthy cache hit the
cached value is returned with no request.  Otherwise the hash-lookup
endpoint is queried: a 404 caches the permanent marker and yields no
payload, other failures yield no payload without caching, and a
success is enriched by a canonical version refresh and a parent-model
fetch before being cached and returned.  The third component lists the
URLs of the issued requests in order. -/
def fetchCivitaiByHash (net : String → NetResp) (cache : CivCache)
    (shaHash : String) : Option Json × CivCache × List String :=
  let cached := getCachedCivitaiData cache shaHash
  if truthyOpt cached then (cached, cache, [])
  else
    let h := stripShaTag shaHash
    let resolveUrl := CIVITAI_API_BASE ++ "/model-versions/by-hash/" ++ h
    match net resolveUrl with
    | .notFound =>
        (none, saveCivitaiCache cache h (notFoundMarker h), [resolveUrl])
    | .err => (none, cache, [resolveUrl])
    | .ok data =>
        let versionData := jsonSetKey data "_resolved_hash" (.str h)
        let versionId := jsonGet versionData "id"
        let modelId0 := jsonGet versionData "modelId"
        let modelId :=
          if truthyOpt modelId0 then modelId0
          else
            match jsonGet versionData "model" with
            | some m =>
                match m with
                | .obj _ => jsonGet m "id"
                | _ => modelId0
            | none => modelId0
        let step2 : Json × Option Json × List String :=
          if truthyOpt versionId then
            let vurl := CIVITAI_API_BASE ++ "/model-versions/" ++
              jsonIdString (versionId.getD .null)
            match net vurl with
            | .ok fetchedVersion =>
                let fetchedVersion := jsonSetKey fetchedVersion "_resolved_hash" (.str h)
                let modelId' := if truthyOpt modelId then modelId
                  else jsonGet fetchedVersion "modelId"
                (fetchedVersion, modelId', [vurl])
            | _ => (versionData, modelId, [vurl])
          else (versionData, modelId, [])
        let versionData2 := step2.1
        let modelId2 := step2.2.1
        let trace2 := step2.2.2
        let step3 : Json × List String :=
          if truthyOpt modelId2 then
            let murl := CIVITAI_API_BASE ++ "/models/" ++
              jsonIdString (modelId2.getD .null)
            match net murl with
            | .ok modelPayload => (jsonSetKey versionData2 "model" modelPayload, [murl])
            | _ => (versionData2, [murl])
          else (versionData2, [])
        let finalData := step3.1
        (some finalData, saveCivitaiCache cache h finalData,
          [resolveUrl] ++ trace2 ++ step3.2)

/-!  LLM-backed extraction (`index_with_llm` and
`prepare_gallery_images` of `src/utils/indexing_llm.py`).  Provider
construction, vision capability, the two generation calls, filesystem
probes, image downloads and image loading are oracles; the event trace
records image downloads that issued a network request and the issued
LLM generation calls. -/

/-- Observable external events of the extraction path. -/
inductive LlmEvent where
  | imgDownload : String → LlmEvent
  | llmVision : LlmEvent
  | llmText : LlmEvent
deriving DecidableEq

/-- Outcome of `download_civitai_image` for one URL: the local path if
any, and whether an HTTP request was issued (the image disk cache is
consulted first, so a cached file costs no request). -/
structure DownloadOut where
  path : Option String
  networkUsed : Bool

/-- The per-image loop of `prepare_gallery_images` over the first five
entries (1-based indices): prompt lines are always collected; a usable
local path is reused, otherwise the image is downloaded; loadable
images are accumulated. -/
def prepGalleryAux (fileExists : String → Bool)
    (download : String → String → Nat → DownloadOut)
    (loadImage : String → Bool) (cacheKey : String) :
    Nat → List GalleryImage → List String × List String × List LlmEvent
  | _, [] => ([], [], [])
  | idx, e :: rest =>
      let promptText := pyStrip (e.prompt.getD "")
      let negativeText := pyStrip (e.negative_prompt.getD "")
      let lines :=
        ["Image " ++ toString idx ++ " prompt: " ++
          (if promptText == "" then "[missing prompt]" else promptText)] ++
        (if !(negativeText == "") then
          ["Image " ++ toString idx ++ " negative prompt: " ++ negativeText] else []) ++
        (if !(e.url == "") then
          ["Image " ++ toString idx ++ " url: " ++ e.url] else [])
      let cachedPath : Option String :=
        match e.local_path with
        | some lp => if !(lp == "") && fileExists lp then some lp else none
        | none => none
      let pathAndEvents : Option String × List LlmEvent :=
        match cachedPath with
        | some p => (some p, [])
        | none =>
            if !(e.url == "") then
              let d := download e.url cacheKey idx
              (d.path, if d.networkUsed then [LlmEvent.imgDownload e.url] else [])
            else (none, [])
      let tail := prepGalleryAux fileExists download loadImage cacheKey (idx + 1) rest
      let imgs :=
        match pathAndEvents.1 with
        | some p => if loadImage p then [p] else []
        | none => []
      (imgs ++ tail.1, lines ++ tail.2.1, pathAndEvents.2 ++ tail.2.2)

/-- `prepare_gallery_images`: empty input yields nothing; otherwise the
per-image loop over the first five entries, with the prompt lines
joined by newlines.  (The write-back of freshly downloaded paths into
the caller's dictionaries is not modelled; no statement below reads
it.) -/
def prepareGalleryImages (fileExists : String → Bool)
    (download : String → String → Nat → DownloadOut)
    (loadImage : String → Bool)
    (imageEntries : Option (List GalleryImage)) (cacheKey : String) :
    List String × String × List LlmEvent :=
  match imageEntries with
  | none => ([], "", [])
  | some entries =>
      if entries.isEmpty then ([], "", [])
      else
        let result := prepGalleryAux fileExists download loadImage cacheKey 1
          (entries.take 5)
        (result.1, joinWith "\n" result.2.1, result.2.2)

/-- The literal JSON example block `INDEXING_JSON_TEMPLATE` embedded in
the prompt; its exact text plays no role in any statement below, so
this constant abbreviates the braced literal of the source. -/
def INDEXING_JSON_TEMPLATE : String := "JSON-OUTPUT-TEMPLATE"

/-- `create_indexing_prompt`: the deterministic prompt template around
the registry text, filename context, gallery context and known-family
list. -/
def createIndexingPrompt (civitaiText : String) (knownFamilies : List String)
    (filename : String) (imageContext : String) : String :=
  let filenameContext :=
    if !(filename == "") then "\n\nLoRA Filename: " ++ filename else ""
  let galleryContext :=
    if !(imageContext == "") then "\n\nCreator Gallery Prompts:\n" ++ imageContext
    else ""
  "Extract structured metadata from this LoRA description:\n\n" ++ civitaiText ++
    filenameContext ++ galleryContext ++
    "\n\nKnown base model families (for reference): " ++
    (if knownFamilies.isEmpty then "None yet"
      else joinWith ", " knownFamilies) ++
    "\n\nRemember: A downstream prompting LLM will read your summary to decide whether this LoRA should be applied to future image requests. Be descriptive about theme, subjects, and aesthetic so the other model can make informed choices." ++
    "\n\nYou MUST output ONLY the following JSON format (no other text):\n" ++
    INDEXING_JSON_TEMPLATE ++ "\n\nYour JSON output:"

/-- The gallery cache key `cache_key or filename or "civitai_gallery"`
(Python `or` chain under string truthiness). -/
def galleryKeyOf (cacheKey : Option String) (filename : String) : String :=
  match cacheKey with
  | some ck =>
      if !(ck == "") then ck
      else if !(filename == "") then filename else "civitai_gallery"
  | none => if !(filename == "") then filename else "civitai_gallery"

/-- `index_with_llm`: provider dispatch, gallery preparation, prompt
construction, then either a vision call (rejected up-front when the
model lacks vision support) or a text call, followed by response
parsing.  The result carries the success triple and the event trace;
an uncaught Python exception from the parser propagates as `.error`. -/
def indexWithLLM (providerName : String) (initOk : Bool)
    (supportsVision : String → Bool)
    (genText : String → Bool × String × String)
    (genVision : String → List String → Bool × String × String)
    (jloads : String → Option Json)
    (fileExists : String → Bool)
    (download : String → String → Nat → DownloadOut)
    (loadImage : String → Bool)
    (civitaiText modelName : String) (knownFamilies : List String)
    (filename : String) (imageEntries : Option (List GalleryImage))
    (cacheKey : Option String) :
    Except PyErr ((Bool × Option IndexingResult × String) × List LlmEvent) :=
  if !(pyLower providerName == "groq" || pyLower providerName == "gemini") then
    .ok ((false, none, "Unknown provider: " ++ providerName), [])
  else if !initOk then
    .ok ((false, none, "Provider initialization error"), [])
  else
    let prepared := prepareGalleryImages fileExists download loadImage
      imageEntries (galleryKeyOf cacheKey filename)
    let galleryImages := prepared.1
    let galleryContext := prepared.2.1
    let events := prepared.2.2
    let prompt := createIndexingPrompt civitaiText knownFamilies filename
      galleryContext
    if !galleryImages.isEmpty then
      if !supportsVision modelName then
        .ok ((false, none,
          "Model " ++ modelName ++
            " does not support vision. Please select a vision-capable model for indexing."),
          events)
      else
        let gen := genVision prompt galleryImages
        let events := events ++ [LlmEvent.llmVision]
        if !gen.1 then
          .ok ((false, none, "LLM generation error: " ++ gen.2.2), events)
        else
          match parseIndexingResponse jloads gen.2.1 with
          | .ok (some extracted) => .ok ((true, some extracted, ""), events)
          | .ok none =>
              .ok ((false, none, "Failed to parse LLM response as valid JSON"), events)
          | .error e => .error e
    else
      let gen := genText prompt
      let events := events ++ [LlmEvent.llmText]
      if !gen.1 then
        .ok ((false, none, "LLM generation error: " ++ gen.2.2), events)
      else
        match parseIndexingResponse jloads gen.2.1 with
        | .ok (some extracted) => .ok ((true, some extracted, ""), events)
        | .ok none =>
            .ok ((false, none, "Failed to parse LLM response as valid JSON"), events)
        | .error e => .error e

/-!  Spec-side transforms used to compare the selection-entry loop
against the claim's wording.  -/

/-- Well-formedness of one selection entry in the sense of the parser's
tolerated drops: a JSON object carrying a `name` key. -/
def selWellFormed (j : Json) : Bool :=
  match j with
  | .obj kvs => kvs.any (fun kv => kv.1 == "name")
  | _ => false

/-- The stripped name of a selection entry when its `name` value is a
string. -/
def selName (j : Json) : Option String :=
  match jsonGet j "name" with
  | some (.str s) => some (pyStrip s)
  | _ => none

/-- The normalized trigger list of a selection entry. -/
def selTriggers (j : Json) : List String :=
  match jsonGet j "used_triggers" with
  | some (.arr ts) => ts.filterMap (fun t =>
      match t with
      | .str s => some (pyStrip s)
      | _ => none)
  | _ => []

/-- Modelled from the spec: claim C9's description of the entry loop -
drop each malformed entry, keep every well-formed one in order. -/
def specSelectedLoras (l : List Json) : List SelEntry :=
  l.filterMap (fun j =>
    if selWellFormed j then
      (selName j).map (fun n => { name := n, used_triggers := selTriggers j })
    else none)

/-!  Concrete inputs for the closed statements below.  -/

/-- A baseline catalog entry used to build concrete inputs. -/
def baseEntry : Entry :=
  { file := "base.safetensors"
    full_path := "/loras/base.safetensors"
    display_name := "base"
    sha256 := "sha256:h0"
    file_hash := "sha256:h0"
    available := true
    summary := ""
    trained_words := []
    tags := []
    enabled := true
    is_character := false
    base_compat := ["Other"]
    default_weight := 1
    source_kind := "unknown"
    source_url := none
    source_version_id := none
    indexed_at := "t0"
    indexed_by_llm := false
    indexing_attempted := false
    safetensors_metadata := false
    civitai_data := none
    civitai_text := none
    images := none }

/-- A disabled, non-character entry compatible with `SDXL 1.0`. -/
def disabledEntry : Entry :=
  { baseEntry with
    file := "disabled.safetensors"
    enabled := false
    base_compat := ["SDXL 1.0"] }

/-- An entry compatible only with `SDXL 1.0` (for the family filter). -/
def sdxlEntry : Entry :=
  { baseEntry with
    file := "sdxl.safetensors"
    base_compat := ["SDXL 1.0"] }

/-- An entry whose trained words already hold one word. -/
def wordEntry : Entry :=
  { baseEntry with
    file := "word.safetensors"
    trained_words := ["a"] }

/-- A one-entry catalog keyed by `h1`. -/
def wordCatalog : Catalog :=
  [("h1", wordEntry)]

/-- The parsed extraction payload whose tags are `"A"` and `"a"`. -/
def dupTagData : Json :=
  .obj [("summary", .str " s "), ("trainedWords", .arr [.str "tw"]),
    ("tags", .arr [.str "A", .str "a"]), ("recommendedStrength", .num 1)]

/-- A stand-in for `json.loads` on the fixed response text
`"{\x22summary\x22: ...}"` carrying `dupTagData` (the mapping is what the
standard library produces for that text). -/
def dupTagJloads : String → Option Json := fun _ => some dupTagData

/-- A selection payload whose only entry has a numeric `name`. -/
def numNameData : Json :=
  .obj [("prompt", .str "p"),
    ("selected_loras", .arr [.obj [("name", .num 5)]])]

/-- A stand-in for `json.loads` on the fixed selection response carrying
`numNameData`. -/
def numNameJloads : String → Option Json := fun _ => some numNameData

/-- A mixed selection payload: a non-dict entry, a dict without `name`,
and a well-formed entry. -/
def mixedSelData : Json :=
  .obj [("prompt", .str "p"),
    ("selected_loras", .arr
      [.num 3, .obj [("x", .null)],
       .obj [("name", .str " a.safetensors "),
             ("used_triggers", .arr [.str "t", .num 1])]])]

/-- A stand-in for `json.loads` on the fixed selection response carrying
`mixedSelData`. -/
def mixedSelJloads : String → Option Json := fun _ => some mixedSelData

/-- The network oracle for the 404 scenario: the hash-lookup endpoint
for `deadbeef` answers 404 and every other URL fails. -/
def notFoundNet : String → NetResp := fun u =>
  if u == CIVITAI_API_BASE ++ "/model-versions/by-hash/deadbeef" then .notFound
  else .err

/-- A gallery entry with an URL and no cached local path. -/
def freshGalleryEntry : GalleryImage :=
  { url := "https://img.example/1.png"
    prompt := some "p1"
    negative_prompt := none
    local_path := none }

/-- A gallery entry whose image is already cached on disk. -/
def cachedGalleryEntry : GalleryImage :=
  { url := "https://img.example/2.png"
    prompt := some "p2"
    negative_prompt := none
    local_path := some "/cache/2.png" }

/-- A download oracle that succeeds and issues a network request. -/
def netDownload : String → String → Nat → DownloadOut := fun _ _ _ =>
  { path := some "/cache/fresh.png", networkUsed := true }

/-- A download oracle that is never consulted in the cached scenario. -/
def idleDownload : String → String → Nat → DownloadOut := fun _ _ _ =>
  { path := none, networkUsed := false }

/-- A filesystem oracle on which only `/cache/2.png` exists. -/
def cachedFs : String → Bool := fun p => p == "/cache/2.png"

/-- An image loader that accepts every path. -/
def alwaysLoad : String → Bool := fun _ => true

/-- A generation oracle that is never reached in the mismatch scenario. -/
def neverGen : String → Bool × String × String := fun _ =>
  (false, "", "unreachable")

/-- A vision-generation oracle that is never reached. -/
def neverGenVision : String → List String → Bool × String × String := fun _ _ =>
  (false, "", "unreachable")

/-- A model-capability oracle with no vision support. -/
def noVision : String → Bool := fun _ => false

/-- An empty safetensors-metadata result. -/
def stEmpty : SafetensorsData :=
  { metadata := false, trained_words := [], base_model := none,
    recommended_weight := none }

/-- A file reference for the already-catalogued entry. -/
def wordFile : FileRef :=
  { name := "word.safetensors", path := "/loras/moved/word.safetensors" }

/-!  Helper lemmas.  -/

/-- Boolean membership agrees with list membership for strings. -/
theorem string_contains_iff (l : List String) (a : String) :
    l.contains a = true ↔ a ∈ l := by
  simp

/-- `isCompatible` is exactly membership: the empty-list guard is
subsumed by membership in the empty list being false. -/
theorem isCompatible_eq_contains (ms : List String) (t : String) :
    isCompatible ms t = ms.contains t := by
  cases ms <;> simp [isCompatible]

/-!  C5.  The family filter keeps exactly the entries whose
`base_compat` contains the target family; no cross-compatibility rule
exists in `BaseModelMapper.is_compatible`.  -/

/-- C5 (counterexample).  An entry compatible only with `SDXL 1.0` is
dropped when filtering for the closely related sub-family
`SDXL Lightning`, although the claimed cross-compatibility rule would
keep it: the classifier has no such rule. -/
theorem c5_counterexample :
    filterByBaseModel [sdxlEntry] "SDXL Lightning" = [] ∧
    specFilterByFamily [sdxlEntry] "SDXL Lightning" = [sdxlEntry] ∧
    sdxlEntry.base_compat.contains "SDXL Lightning" = false := by
  refine ⟨by with_unfolding_all rfl, by with_unfolding_all rfl, by decide⟩

/-- C5 (amended).  `filterByFamily` keeps exactly the entries whose
`baseCompat` holds the target family as an exact member - equivalently,
it is the plain membership filter; no cross-compatibility acceptance
for related sub-families takes place. -/
theorem c5_family_filter_exact (entries : List Entry) (t : String) :
    filterByBaseModel entries t
      = entries.filter (fun e => e.base_compat.contains t) ∧
    ∀ e : Entry, e ∈ filterByBaseModel entries t ↔ e ∈ entries ∧ t ∈ e.base_compat := by
  have hfe : filterByBaseModel entries t
      = entries.filter (fun e => e.base_compat.contains t) := by
    unfold filterByBaseModel
    exact List.filter_congr (fun e _ => isCompatible_eq_contains e.base_compat t)
  refine ⟨hfe, fun e => ?_⟩
  rw [hfe, List.mem_filter]
  exact and_congr_right (fun _ => string_contains_iff e.base_compat t)

/-- C5 (witness).  The amended statement applied at a singleton list and
its own family. -/
theorem c5_family_filter_exact_witness :
    sdxlEntry ∈ filterByBaseModel [sdxlEntry] "SDXL 1.0" :=
  ((c5_family_filter_exact [sdxlEntry] "SDXL 1.0").2 sdxlEntry).mpr
    ⟨List.mem_singleton.mpr rfl, by decide⟩

/-!  C3.  Selection resolution is closed over the candidate pool.  -/

/-- C3.  Every entry returned by `resolveSelection` is a member of the
candidate pool (so its file identity occurs in the pool), and a chosen
name matching no pool entry contributes nothing - it is dropped without
any effect on the rest of the resolution. -/
theorem c3_resolve_selection_closure (sel : List SelEntry) (pool : List Entry) :
    (∀ e ∈ resolveSelectedLorasFromLLM sel pool,
      e ∈ pool ∧ e.file ∈ pool.map (fun p => p.file)) ∧
    (∀ s : SelEntry, (∀ p ∈ pool, ¬ p.file = s.name) →
      resolveSelectedLorasFromLLM (sel ++ [s]) pool
        = resolveSelectedLorasFromLLM sel pool) := by
  constructor
  · intro e he
    unfold resolveSelectedLorasFromLLM at he
    obtain ⟨s, _, hfind⟩ := List.mem_filterMap.mp he
    unfold catalogByFile at hfind
    have hmem : e ∈ pool := List.mem_reverse.mp (List.mem_of_find?_eq_some hfind)
    exact ⟨hmem, List.mem_map_of_mem (fun p => p.file) hmem⟩
  · intro s hnone
    unfold resolveSelectedLorasFromLLM
    rw [List.filterMap_append]
    have hres : catalogByFile pool s.name = none := by
      unfold catalogByFile
      rw [List.find?_eq_none]
      intro p hp
      simpa using hnone p (List.mem_reverse.mp hp)
    simp [hres]

/-- C3 (witness).  A name absent from a concrete pool is dropped. -/
theorem c3_resolve_selection_closure_witness :
    resolveSelectedLorasFromLLM
        ([{ name := "sdxl.safetensors", used_triggers := [] }] ++
          [{ name := "ghost.safetensors", used_triggers := [] }]) [sdxlEntry]
      = resolveSelectedLorasFromLLM
          [{ name := "sdxl.safetensors", used_triggers := [] }] [sdxlEntry] :=
  (c3_resolve_selection_closure
      [{ name := "sdxl.safetensors", used_triggers := [] }] [sdxlEntry]).2
    { name := "ghost.safetensors", used_triggers := [] }
    (by intro p hp; rw [List.mem_singleton] at hp; subst hp; decide)

/-!  C10.  Marking an absent content identifier is a silent no-op.  -/

/-- C10.  Calling `markEnriched` or `markAttempted` with a content
identifier absent from the catalog leaves the catalog map entirely
unchanged (and, being total functions, both return normally). -/
theorem c10_mark_missing_noop (enum : List String → List String) (c : Catalog)
    (h summary : String) (tw tags bc : List String) (rs : Option Rat)
    (hmem : catMem c h = false) :
    markLLMIndexed enum c h summary tw tags bc rs = c ∧
    markIndexingAttempted c h = c := by
  unfold markLLMIndexed markIndexingAttempted
  rw [hmem]
  simp

/-- C10 (witness).  The no-op at a concrete catalog and absent hash. -/
theorem c10_mark_missing_noop_witness :
    markLLMIndexed dedupEnum wordCatalog "zz" "s" ["x"] [] [] none = wordCatalog ∧
    markIndexingAttempted wordCatalog "zz" = wordCatalog :=
  c10_mark_missing_noop dedupEnum wordCatalog "zz" "s" ["x"] [] [] none (by decide)

/-!  Association-list lemmas for the catalog map.  -/

/-- A lookup through an update at the same key applies the update. -/
theorem catGet_catUpdate_self (c : Catalog) (h : String) (f : Entry → Entry) :
    catGet (catUpdate c h f) h = (catGet c h).map f := by
  induction c with
  | nil => rfl
  | cons kv rest ih =>
      by_cases hk : kv.1 == h
      · simp [catGet, catUpdate, List.find?, hk]
      · simpa [catGet, catUpdate, List.find?, hk] using ih

/-- A lookup through an update at a different key is unchanged. -/
theorem catGet_catUpdate_ne (c : Catalog) (h h' : String) (f : Entry → Entry)
    (hne : ¬ h' = h) :
    catGet (catUpdate c h f) h' = catGet c h' := by
  induction c with
  | nil => rfl
  | cons kv rest ih =>
      by_cases hk : kv.1 == h
      · have hk' : (kv.1 == h') = false := by
          rw [beq_eq_false_iff_ne]
          intro hc
          exact hne (hc ▸ beq_iff_eq.mp hk)
        simpa [catGet, catUpdate, List.find?, hk, hk'] using ih
      · by_cases hk2 : kv.1 == h'
        · simp [catGet, catUpdate, List.find?, hk, hk2]
        · simpa [catGet, catUpdate, List.find?, hk, hk2] using ih

/-- Updates do not change the key sequence. -/
theorem catUpdate_keys (c : Catalog) (h : String) (f : Entry → Entry) :
    (catUpdate c h f).map (fun kv => kv.1) = c.map (fun kv => kv.1) := by
  induction c with
  | nil => rfl
  | cons kv rest ih =>
      by_cases hk : kv.1 == h <;> simp [catUpdate, hk, ih]

/-- Stacked updates at one key compose. -/
theorem catUpdate_catUpdate (c : Catalog) (h : String) (f g : Entry → Entry) :
    catUpdate (catUpdate c h f) h g = catUpdate c h (fun e => g (f e)) := by
  induction c with
  | nil => rfl
  | cons kv rest ih =>
      by_cases hk : kv.1 == h <;> simp [catUpdate, hk, ih]

/-- Membership agrees with lookup success. -/
theorem catMem_eq_isSome (c : Catalog) (h : String) :
    catMem c h = (catGet c h).isSome := by
  induction c with
  | nil => rfl
  | cons kv rest ih =>
      by_cases hk : kv.1 == h
      · simp [catMem, catGet, List.find?, hk]
      · simpa [catMem, catGet, List.find?, hk] using ih

/-- A successful lookup puts the key among the catalog keys. -/
theorem key_mem_of_catGet (c : Catalog) (h : String) (e : Entry)
    (he : catGet c h = some e) : h ∈ c.map (fun kv => kv.1) := by
  induction c with
  | nil => exact absurd he (by simp [catGet])
  | cons kv rest ih =>
      by_cases hk : kv.1 == h
      · simp only [List.map_cons, List.mem_cons]
        exact Or.inl (beq_iff_eq.mp hk).symm
      · simp only [List.map_cons, List.mem_cons]
        exact Or.inr (ih (by simpa [catGet, List.find?, hk] using he))

/-!  The deduplication loop.  -/

/-- The seen-set loop returns a duplicate-free list holding exactly the
unseen elements of its input. -/
theorem pyUniqueAux_spec (l : List String) :
    ∀ seen : List String, (pyUniqueAux seen l).Nodup ∧
      ∀ a : String, a ∈ pyUniqueAux seen l ↔ a ∈ l ∧ ¬ a ∈ seen := by
  induction l with
  | nil => intro seen; exact ⟨List.nodup_nil, by simp [pyUniqueAux]⟩
  | cons w ws ih =>
      intro seen
      by_cases hws : w ∈ seen
      · have hres : pyUniqueAux seen (w :: ws) = pyUniqueAux seen ws := by
          simp [pyUniqueAux, hws]
        have := ih seen
        refine ⟨hres ▸ this.1, fun a => ?_⟩
        rw [hres, this.2 a, List.mem_cons]
        constructor
        · exact fun ⟨h1, h2⟩ => ⟨Or.inr h1, h2⟩
        · rintro ⟨rfl | h1, h2⟩
          · exact absurd hws h2
          · exact ⟨h1, h2⟩
      · have hres : pyUniqueAux seen (w :: ws)
            = w :: pyUniqueAux (w :: seen) ws := by
          simp [pyUniqueAux, hws]
        have htail := ih (w :: seen)
        constructor
        · rw [hres]
          refine List.nodup_cons.mpr ⟨fun hc => ?_, htail.1⟩
          exact ((htail.2 w).mp hc).2 (List.mem_cons_self w seen)
        · intro a
          rw [hres, List.mem_cons, htail.2 a, List.mem_cons, List.mem_cons]
          constructor
          · rintro (rfl | ⟨h1, h2⟩)
            · exact ⟨Or.inl rfl, hws⟩
            · exact ⟨Or.inr h1, fun hc => h2 (Or.inr hc)⟩
          · rintro ⟨rfl | h1, h2⟩
            · exact Or.inl rfl
            · by_cases haw : a = w
              · exact Or.inl haw
              · exact Or.inr ⟨h1, fun hc => (hc.elim haw h2)⟩

/-- First-occurrence deduplication is a valid set enumeration. -/
theorem isSetEnum_dedupEnum : IsSetEnum dedupEnum := by
  intro xs
  have := pyUniqueAux_spec xs []
  exact ⟨this.1, fun a => by simpa using this.2 a⟩

/-!  C1.  The trained-word merge of `markEnriched`.  -/

/-- C1 (counterexample).  Merging the new trained words `["b", "b"]`
into an entry whose stored words are `["a"]` yields
`["a", "b", "b"]`: the resulting list contains a duplicate, because the
merge only filters new words against the existing ones, never against
each other. -/
theorem c1_counterexample :
    catGet (markLLMIndexed dedupEnum wordCatalog "h1" "s" ["b", "b"] [] [] none) "h1"
      = some { wordEntry with
               summary := "s"
               indexed_by_llm := true
               indexing_attempted := true
               trained_words := ["a", "b", "b"] } ∧
    ¬ ([("a" : String), "b", "b"]).Nodup :=
  ⟨by with_unfolding_all rfl, by decide⟩

/-- C1 (amended).  For every valid enumeration of the Python set of
previously stored words, the merged list is that enumeration (the
distinct previously stored words, in unspecified set order) followed by
the new words not already stored, in their given order; its members are
exactly the union, and it is duplicate-free whenever the supplied new
list is itself duplicate-free. -/
theorem c1_merge_shape (enum : List String → List String)
    (henum : IsSetEnum enum) (c : Catalog) (fileHash summary : String)
    (tw tags bc : List String) (rs : Option Rat) (e : Entry)
    (he : catGet c fileHash = some e) :
    ∃ e' : Entry,
      catGet (markLLMIndexed enum c fileHash summary tw tags bc rs) fileHash
        = some e' ∧
      e'.trained_words
        = enum e.trained_words
            ++ tw.filter (fun w => !e.trained_words.contains w) ∧
      (∀ a, a ∈ e'.trained_words ↔ a ∈ e.trained_words ∨ a ∈ tw) ∧
      (tw.Nodup → e'.trained_words.Nodup) := by
  have hmem : catMem c fileHash = true := by
    rw [catMem_eq_isSome, he]
    rfl
  unfold markLLMIndexed
  rw [hmem]
  rw [if_neg (by decide), catGet_catUpdate_self, he]
  simp only [Option.map_some]
  refine ⟨_, rfl, rfl, ?_, ?_⟩
  · intro a
    simp only [List.mem_append, List.mem_filter, (henum e.trained_words).2 a,
      Bool.not_eq_eq_eq_not, Bool.not_true]
    constructor
    · rintro (h1 | ⟨h1, _⟩)
      · exact Or.inl h1
      · exact Or.inr h1
    · rintro (h1 | h1)
      · exact Or.inl h1
      · by_cases hprev : a ∈ e.trained_words
        · exact Or.inl hprev
        · refine Or.inr ⟨h1, ?_⟩
          rw [Bool.eq_false_iff]
          intro hc
          exact hprev ((string_contains_iff _ a).mp hc)
  · intro htw
    refine List.Nodup.append ((henum e.trained_words).1) (htw.filter _) ?_
    intro a ha hafil
    have h1 : a ∈ e.trained_words := ((henum e.trained_words).2 a).mp ha
    have h2 := (List.mem_filter.mp hafil).2
    rw [Bool.not_eq_eq_eq_not, Bool.not_true, Bool.eq_false_iff] at h2
    exact h2 ((string_contains_iff _ a).mpr h1)

/-- C1 (witness).  The merge shape at a concrete catalog, enumeration
and duplicate-free word list. -/
theorem c1_merge_shape_witness :
    ∃ e' : Entry,
      catGet (markLLMIndexed dedupEnum wordCatalog "h1" "s" ["b"] [] [] none) "h1"
        = some e' ∧
      e'.trained_words
        = dedupEnum wordEntry.trained_words
            ++ ["b"].filter (fun w => !wordEntry.trained_words.contains w) ∧
      (∀ a, a ∈ e'.trained_words ↔ a ∈ wordEntry.trained_words ∨ a ∈ ["b"]) ∧
      (([("b" : String)]).Nodup → e'.trained_words.Nodup) :=
  c1_merge_shape dedupEnum isSetEnum_dedupEnum wordCatalog "h1" "s" ["b"] [] []
    none wordEntry (by with_unfolding_all rfl)

/-!  C4.  Re-indexing an already-catalogued file.  -/

/-- C4.  When the content identifier of a file is already catalogued,
`indexBasic` returns that identifier, creates and deletes nothing (the
key sequence is unchanged and exactly one binding of the identifier
remains), rewrites the stored entry only in its `available` flag and
`full_path` (every other field, `trained_words` included, is the stored
value), leaves every other key's entry untouched, and a further call on
the unchanged file changes nothing at all. -/
theorem c4_index_basic_idempotent (c : Catalog) (file : FileRef)
    (fileHash : String) (st : SafetensorsData) (civ : Option Json)
    (view : Option CivView) (now : String) (e : Entry)
    (he : catGet c fileHash = some e)
    (hnodup : (c.map (fun kv => kv.1)).Nodup) :
    (indexLoraBasic c file fileHash st civ view now).1 = fileHash ∧
    (indexLoraBasic c file fileHash st civ view now).2.map (fun kv => kv.1)
      = c.map (fun kv => kv.1) ∧
    ((indexLoraBasic c file fileHash st civ view now).2.map (fun kv => kv.1)).count
      fileHash = 1 ∧
    catGet (indexLoraBasic c file fileHash st civ view now).2 fileHash
      = some { e with available := true, full_path := file.path } ∧
    (∀ k, ¬ k = fileHash →
      catGet (indexLoraBasic c file fileHash st civ view now).2 k = catGet c k) ∧
    indexLoraBasic (indexLoraBasic c file fileHash st civ view now).2 file
        fileHash st civ view now
      = indexLoraBasic c file fileHash st civ view now := by
  have hmem : catMem c fileHash = true := by
    rw [catMem_eq_isSome, he]
    rfl
  have hres : indexLoraBasic c file fileHash st civ view now
      = (fileHash, catUpdate c fileHash
          (fun entry => { entry with available := true, full_path := file.path })) := by
    unfold indexLoraBasic
    rw [hmem]
    rfl
  rw [hres]
  have hkeys := catUpdate_keys c fileHash
    (fun entry => { entry with available := true, full_path := file.path })
  have hmem2 : catMem (catUpdate c fileHash
      (fun entry => { entry with available := true, full_path := file.path }))
      fileHash = true := by
    rw [catMem_eq_isSome, catGet_catUpdate_self, he]
    rfl
  refine ⟨rfl, hkeys, ?_, ?_, ?_, ?_⟩
  · rw [hkeys]
    exact List.count_eq_one_of_mem hnodup (key_mem_of_catGet c fileHash e he)
  · rw [catGet_catUpdate_self, he]
    rfl
  · intro k hk
    exact catGet_catUpdate_ne c fileHash k _ hk
  · unfold indexLoraBasic
    rw [hmem2]
    simp only [if_true]
    rw [catUpdate_catUpdate]

/-!  C6.  Normalization guarantees of the extraction parser.  -/

/-- The first argument bounds `pyMax` from below. -/
theorem le_pyMax_left (a b : Rat) : a ≤ pyMax a b := by
  unfold pyMax
  split_ifs with h
  · exact le_refl a
  · exact le_of_not_le h

/-- `pyMax` of two bounded values is bounded. -/
theorem pyMax_le (a b c : Rat) (ha : a ≤ c) (hb : b ≤ c) : pyMax a b ≤ c := by
  unfold pyMax
  split_ifs <;> assumption

/-- `pyMin` is bounded by its first argument. -/
theorem pyMin_le_left (a b : Rat) : pyMin a b ≤ a := by
  unfold pyMin
  split_ifs with h
  · exact le_refl a
  · exact le_of_not_le h

/-- Clamping lands in the closed interval. -/
theorem clampStrength_bounds (s : Rat) :
    (0.2 : Rat) ≤ clampStrength s ∧ clampStrength s ≤ 2 := by
  unfold clampStrength
  refine ⟨le_pyMax_left _ _, pyMax_le _ _ _ (by norm_num) ?_⟩
  exact le_trans (pyMin_le_left 2.0 s) (by norm_num)

/-- Slicing bounds the character length. -/
theorem pyLen_pySlice_le (s : String) (n : Nat) : pyLen (pySlice s n) ≤ n := by
  have h := List.length_take_le n s.toList
  simp only [pyLen, pySlice]
  exact h

/-- C6 (amended).  Every accepted extraction response is normalized:
the strength is clamped into `[0.2, 2.0]`, the summary is truncated to
at most 400 characters, and the tags are at most 15, each the
lowercased stripped form of a string element of the raw tag array -
but the tags are not deduplicated. -/
theorem c6_parse_indexing_normalizes (jloads : String → Option Json)
    (text : String) (r : IndexingResult)
    (h : parseIndexingResponse jloads text = .ok (some r)) :
    (0.2 : Rat) ≤ r.recommendedStrength ∧ r.recommendedStrength ≤ 2 ∧
    pyLen r.summary ≤ 400 ∧ r.tags.length ≤ 15 ∧
    (∀ t ∈ r.tags, ∃ s0 : String, t = pyLower (pyStrip s0)) := by
  unfold parseIndexingResponse at h
  repeat' split at h
  all_goals try exact Except.noConfusion h
  all_goals try exact Option.noConfusion (Except.ok.inj h)
  all_goals
    have hr : _ = r := Option.some.inj (Except.ok.inj h)
  all_goals subst hr
  all_goals
    refine ⟨(clampStrength_bounds _).1, (clampStrength_bounds _).2,
      pyLen_pySlice_le _ 400, List.length_take_le _ _, ?_⟩
  all_goals
    intro t ht
    have ht' := List.mem_of_mem_take ht
    obtain ⟨j, _, hj⟩ := List.mem_filterMap.mp ht'
    cases j with
    | str s0 =>
        have hj' : (if (!(pyStrip s0 == "")) = true
            then some (pyLower (pyStrip s0)) else none) = some t := hj
        by_cases hs : ((!(pyStrip s0 == "")) = true)
        · rw [if_pos hs] at hj'
          exact ⟨s0, (Option.some.inj hj').symm⟩
        · rw [if_neg hs] at hj'
          exact Option.noConfusion hj'
    | null => exact Option.noConfusion hj
    | bool b => exact Option.noConfusion hj
    | num q => exact Option.noConfusion hj
    | arr xs => exact Option.noConfusion hj
    | obj kvs => exact Option.noConfusion hj

/-- C6 (witness).  The normalization facts at a concrete accepted
response. -/
theorem c6_parse_indexing_normalizes_witness :
    (0.2 : Rat) ≤ (IndexingResult.mk "s" ["tw"] ["a", "a"] 1).recommendedStrength ∧
    (IndexingResult.mk "s" ["tw"] ["a", "a"] 1).recommendedStrength ≤ 2 ∧
    pyLen (IndexingResult.mk "s" ["tw"] ["a", "a"] 1).summary ≤ 400 ∧
    (IndexingResult.mk "s" ["tw"] ["a", "a"] 1).tags.length ≤ 15 ∧
    (∀ t ∈ (IndexingResult.mk "s" ["tw"] ["a", "a"] 1).tags,
      ∃ s0 : String, t = pyLower (pyStrip s0)) :=
  c6_parse_indexing_normalizes dupTagJloads "x"
    (IndexingResult.mk "s" ["tw"] ["a", "a"] 1) (by with_unfolding_all rfl)

/-- C6 (counterexample).  The raw tags `["A", "a"]` are accepted and
normalized to `["a", "a"]`: lowercased and capped, but not
deduplicated. -/
theorem c6_counterexample :
    parseIndexingResponse dupTagJloads "x"
      = .ok (some (IndexingResult.mk "s" ["tw"] ["a", "a"] 1)) ∧
    ¬ ([("a" : String), "a"]).Nodup :=
  ⟨by with_unfolding_all rfl, by decide⟩

/-!  C9.  Tolerated drops in the selection-response parser.  -/

/-- A found binding makes the Boolean key search succeed. -/
theorem any_of_find?_eq_some {p : String × Json → Bool}
    (kvs : List (String × Json)) (kv : String × Json)
    (hf : kvs.find? p = some kv) : kvs.any p = true :=
  List.any_eq_true.mpr ⟨kv, List.mem_of_find?_eq_some hf, List.find?_some hf⟩

/-- A `get`-style lookup success yields an item-style lookup success. -/
theorem pyGetItem_of_jsonGet (j : Json) (k : String) (v : Json)
    (h : jsonGet j k = some v) : pyGetItem j k = .ok v := by
  cases j with
  | obj kvs =>
      have h' : Option.map (fun kv : String × Json => kv.2)
          (kvs.find? (fun kv => kv.1 == k)) = some v := h
      show (match kvs.find? (fun kv => kv.1 == k) with
        | some kv => Except.ok kv.2
        | none => Except.error (PyErr.keyError k)) = Except.ok v
      cases hf : kvs.find? (fun kv => kv.1 == k) with
      | none => rw [hf] at h'; exact Option.noConfusion h'
      | some kv =>
          rw [hf] at h'
          exact congrArg Except.ok (Option.some.inj h')
  | null => exact Option.noConfusion h
  | bool b => exact Option.noConfusion h
  | num q => exact Option.noConfusion h
  | str s => exact Option.noConfusion h
  | arr xs => exact Option.noConfusion h

/-- A `get`-style lookup success makes the Boolean key search succeed. -/
theorem any_of_jsonGet (kvs : List (String × Json)) (k : String) (v : Json)
    (h : jsonGet (Json.obj kvs) k = some v) :
    kvs.any (fun kv => kv.1 == k) = true := by
  have h' : Option.map (fun kv : String × Json => kv.2)
      (kvs.find? (fun kv => kv.1 == k)) = some v := h
  cases hf : kvs.find? (fun kv => kv.1 == k) with
  | none => rw [hf] at h'; exact Option.noConfusion h'
  | some kv => exact any_of_find?_eq_some kvs kv hf

/-- All-fields-present schema validation on an object succeeds. -/
theorem collectMissing_all_present (kvs : List (String × Json))
    (fields : List String)
    (hall : ∀ f ∈ fields, kvs.any (fun kv => kv.1 == f) = true) :
    collectMissing (Json.obj kvs) fields = .ok [] := by
  induction fields with
  | nil => rfl
  | cons f fs ih =>
      have h1 : pyInData f (Json.obj kvs) = .ok true := by
        show Except.ok (kvs.any (fun kv => kv.1 == f)) = Except.ok true
        rw [hall f (List.mem_cons_self f fs)]
      unfold collectMissing
      rw [h1]
      dsimp only
      rw [ih (fun g hg => hall g (List.mem_cons_of_mem f hg))]
      rfl

/-- Schema validation succeeds when every required field is present. -/
theorem validateJsonSchema_all_present (kvs : List (String × Json))
    (fields : List String)
    (hall : ∀ f ∈ fields, kvs.any (fun kv => kv.1 == f) = true) :
    validateJsonSchema (Json.obj kvs) fields = .ok (true, "") := by
  unfold validateJsonSchema
  rw [collectMissing_all_present kvs fields hall]
  rfl

/-- A selection entry whose `name`, when present on an object, carries a
string (the shapes the entry loop tolerates without raising). -/
def selNameOk (j : Json) : Bool :=
  match j with
  | .obj kvs =>
      match kvs.find? (fun kv => kv.1 == "name") with
      | some kv => (match kv.2 with | .str _ => true | _ => false)
      | none => true
  | _ => true

/-- Under string-valued names, the entry loop never raises and returns
exactly the well-formed entries, in order. -/
theorem buildSelectedLoras_ok (l : List Json)
    (hl : ∀ j ∈ l, selNameOk j = true) :
    buildSelectedLoras l = .ok (specSelectedLoras l) := by
  induction l with
  | nil => rfl
  | cons j rest ih =>
      have hrest := ih (fun x hx => hl x (List.mem_cons_of_mem j hx))
      have hj := hl j (List.mem_cons_self j rest)
      cases j with
      | obj kvs =>
          cases hname : (kvs.any (fun kv => kv.1 == "name")) with
          | false =>
              have hbuild : buildSelectedLoras (Json.obj kvs :: rest)
                  = buildSelectedLoras rest := by
                conv_lhs => rw [buildSelectedLoras.eq_def]
                dsimp only
                rw [hname, if_pos (by decide)]
              have hspec : specSelectedLoras (Json.obj kvs :: rest)
                  = specSelectedLoras rest := by
                unfold specSelectedLoras
                rw [List.filterMap_cons]
                have hwf : selWellFormed (Json.obj kvs) = false := hname
                rw [hwf, if_neg (by decide)]
              rw [hbuild, hspec, hrest]
          | true =>
              cases hf : kvs.find? (fun kv => kv.1 == "name") with
              | none =>
                  obtain ⟨kv0, hmem0, hp0⟩ := List.any_eq_true.mp hname
                  exact absurd hp0 (by simpa using List.find?_eq_none.mp hf kv0 hmem0)
              | some kv =>
                  have hj' : (match kvs.find? (fun kv => kv.1 == "name") with
                      | some kv => (match kv.2 with | Json.str _ => true | _ => false)
                      | none => true) = true := hj
                  rw [hf] at hj'
                  have hj2 : (match kv.2 with
                      | Json.str _ => true
                      | _ => false) = true := hj'
                  cases hkv2 : kv.2 with
                  | str s =>
                      have hget : pyGetItem (Json.obj kvs) "name"
                          = .ok (Json.str s) := by
                        show (match kvs.find? (fun kv => kv.1 == "name") with
                          | some kv => Except.ok kv.2
                          | none => Except.error (PyErr.keyError "name"))
                          = Except.ok (Json.str s)
                        rw [hf]
                        exact congrArg Except.ok hkv2
                      have hjg : jsonGet (Json.obj kvs) "name"
                          = some (Json.str s) := by
                        have h0 : Option.map (fun kv : String × Json => kv.2)
                            (kvs.find? (fun kv => kv.1 == "name"))
                            = some kv.2 := by rw [hf]; rfl
                        calc jsonGet (Json.obj kvs) "name" = some kv.2 := h0
                          _ = some (Json.str s) := congrArg some hkv2
                      have hseln : selName (Json.obj kvs) = some (pyStrip s) := by
                        unfold selName
                        rw [hjg]
                      have hbuild : buildSelectedLoras (Json.obj kvs :: rest)
                          = .ok ({ name := pyStrip s,
                                   used_triggers := selTriggers (Json.obj kvs) }
                              :: specSelectedLoras rest) := by
                        conv_lhs => rw [buildSelectedLoras.eq_def]
                        dsimp only
                        rw [hname, if_neg (by decide), hget]
                        dsimp only [pyStripAttr]
                        rw [hrest]
                        rfl
                      have hspec : specSelectedLoras (Json.obj kvs :: rest)
                          = { name := pyStrip s,
                              used_triggers := selTriggers (Json.obj kvs) }
                            :: specSelectedLoras rest := by
                        unfold specSelectedLoras
                        rw [List.filterMap_cons]
                        have hwf : selWellFormed (Json.obj kvs) = true := hname
                        rw [hwf, if_pos (by decide), hseln]
                        rfl
                      rw [hbuild, hspec]
                  | null => rw [hkv2] at hj2; exact Bool.noConfusion hj2
                  | bool b => rw [hkv2] at hj2; exact Bool.noConfusion hj2
                  | num q => rw [hkv2] at hj2; exact Bool.noConfusion hj2
                  | arr xs => rw [hkv2] at hj2; exact Bool.noConfusion hj2
                  | obj kvs2 => rw [hkv2] at hj2; exact Bool.noConfusion hj2
      | null => exact hrest
      | bool b => exact hrest
      | num q => exact hrest
      | str s => exact hrest
      | arr xs => exact hrest

/-- C9 (amended).  When the top-level JSON parses to an object whose
required `prompt` (a string) and `selected_loras` (an array) fields are
present, and each array element that is an object carrying a `name`
key has a string name, the parser succeeds - it never raises and never
fails the whole response - and the returned entries are exactly the
well-formed elements, in order, with the rest silently dropped.  (An
element whose `name` value is not a string instead raises, see the
counterexample.) -/
theorem c9_parse_prompting_drops_malformed (jloads : String → Option Json)
    (text : String) (kvs : List (String × Json)) (prompt : String)
    (selRaw : List Json)
    (hdata : safeJsonLoads jloads text = some (Json.obj kvs))
    (hprompt : jsonGet (Json.obj kvs) "prompt" = some (Json.str prompt))
    (hsel : jsonGet (Json.obj kvs) "selected_loras" = some (Json.arr selRaw))
    (hnames : ∀ j ∈ selRaw, selNameOk j = true) :
    ∃ r : PromptingResult,
      parsePromptingResponse jloads text = .ok (some r) ∧
      r.prompt = pyStrip prompt ∧
      r.selected_loras = specSelectedLoras selRaw := by
  have hkeyP := any_of_jsonGet kvs "prompt" (Json.str prompt) hprompt
  have hkeyS := any_of_jsonGet kvs "selected_loras" (Json.arr selRaw) hsel
  have htr : truthyJson (Json.obj kvs) = true := by
    cases kvs with
    | nil => exact Option.noConfusion hprompt
    | cons kv rest => rfl
  have hval : validateJsonSchema (Json.obj kvs) PROMPTING_SCHEMA_FIELDS
      = .ok (true, "") := by
    refine validateJsonSchema_all_present kvs PROMPTING_SCHEMA_FIELDS ?_
    intro f hfm
    simp only [PROMPTING_SCHEMA_FIELDS, List.mem_cons, List.mem_singleton,
      List.not_mem_nil, or_false] at hfm
    rcases hfm with rfl | rfl
    · exact hkeyP
    · exact hkeyS
  have hgetP := pyGetItem_of_jsonGet (Json.obj kvs) "prompt" (Json.str prompt)
    hprompt
  have hgetS := pyGetItem_of_jsonGet (Json.obj kvs) "selected_loras"
    (Json.arr selRaw) hsel
  have hbuild := buildSelectedLoras_ok selRaw hnames
  refine ⟨{ prompt := pyStrip prompt,
            negative_prompt := (match jsonGet (Json.obj kvs) "negative_prompt" with
              | some (.str s) => pyStrip s
              | some _ => ""
              | none => ""),
            selected_loras := specSelectedLoras selRaw }, ?_, rfl, rfl⟩
  unfold parsePromptingResponse
  rw [hdata]
  dsimp only
  rw [htr, if_neg (by decide), hval]
  dsimp only
  rw [if_neg (by decide), hgetP]
  dsimp only
  rw [hgetS]
  dsimp only
  rw [hbuild]

/-- C9 (witness).  The drop behaviour at a concrete mixed payload: a
non-object element and a nameless object are dropped, the well-formed
entry is kept. -/
theorem c9_parse_prompting_drops_malformed_witness :
    ∃ r : PromptingResult,
      parsePromptingResponse mixedSelJloads "x" = .ok (some r) ∧
      r.prompt = pyStrip "p" ∧
      r.selected_loras = specSelectedLoras
        [Json.num 3, Json.obj [("x", Json.null)],
         Json.obj [("name", Json.str " a.safetensors "),
                   ("used_triggers", Json.arr [Json.str "t", Json.num 1])]] :=
  c9_parse_prompting_drops_malformed mixedSelJloads "x" _ "p" _
    rfl rfl rfl (by decide)

/-- C9 (counterexample).  A selection entry whose `name` value is the
number `5` makes the parser raise `AttributeError` (Python evaluates
`lora['name'].strip()`), so the whole response fails instead of the
malformed entry being dropped. -/
theorem c9_counterexample :
    parsePromptingResponse numNameJloads "x"
      = .error (PyErr.attributeError "strip") := by
  with_unfolding_all rfl

/-!  C2.  The candidate pipeline.  -/

/-- Ranking permutes its input. -/
theorem rankCandidates_perm (ctx : String) (l : List Entry) :
    (rankCandidatesByRelevance ctx l).Perm l := by
  unfold rankCandidatesByRelevance
  have hperm := List.perm_insertionSort
    (fun a b : Rat × Entry => a.1 ≥ b.1)
    (l.map (fun c => (relevanceScore ctx c, c)))
  have hm := hperm.map (fun p : Rat × Entry => p.2)
  have hid : List.map (fun p : Rat × Entry => p.2)
      (List.map (fun c => (relevanceScore ctx c, c)) l) = l := by
    rw [List.map_map]
    exact List.map_id' l
  conv_rhs => rw [← hid]
  exact hm

/-- Ranking sorts the scores into descending order. -/
theorem rankCandidates_sorted (ctx : String) (l : List Entry) :
    List.Sorted (fun a b : Rat => b ≤ a)
      ((rankCandidatesByRelevance ctx l).map (relevanceScore ctx)) := by
  unfold rankCandidatesByRelevance
  haveI h1 : IsTotal (Rat × Entry) (fun a b => a.1 ≥ b.1) :=
    ⟨fun a b => le_total b.1 a.1⟩
  haveI h2 : IsTrans (Rat × Entry) (fun a b => a.1 ≥ b.1) :=
    ⟨fun a b c hab hbc => le_trans hbc hab⟩
  have hsorted := List.sorted_insertionSort
    (fun a b : Rat × Entry => a.1 ≥ b.1)
    (l.map (fun c => (relevanceScore ctx c, c)))
  have hfst : ∀ p ∈ (l.map (fun c => (relevanceScore ctx c, c))).insertionSort
      (fun a b : Rat × Entry => a.1 ≥ b.1), p.1 = relevanceScore ctx p.2 := by
    intro p hp
    have hmem : p ∈ l.map (fun c => (relevanceScore ctx c, c)) :=
      (List.perm_insertionSort _ _).mem_iff.mp hp
    obtain ⟨c, _, hc⟩ := List.mem_map.mp hmem
    rw [← hc]
  rw [List.map_map]
  show List.Pairwise _ _
  rw [List.pairwise_map]
  refine List.Pairwise.imp_of_mem ?_ hsorted
  intro a b ha hb hab
  show relevanceScore ctx b.2 ≤ relevanceScore ctx a.2
  rw [← hfst a ha, ← hfst b hb]
  exact hab

/-- C2 (counterexample).  A disabled, non-character entry compatible
with the requested family is returned by the code, while the claimed
disabled-entry exclusion would drop it: the third stage of
`getCandidates` excludes character entries, not disabled ones. -/
theorem c2_counterexample :
    getCandidatesForAutoselect [disabledEntry] "SDXL 1.0" [] "" 30
      = [disabledEntry] ∧
    specGetCandidates [disabledEntry] "SDXL 1.0" [] "" 30 = [] ∧
    disabledEntry.enabled = false ∧ disabledEntry.is_character = false :=
  ⟨by with_unfolding_all rfl, by with_unfolding_all rfl, rfl, rfl⟩

/-- C2 (amended).  `getCandidates` composes the family filter, the
allow-list filter (when the allow-list is non-empty), the character
exclusion (entries with `is_character`; disabled entries are not
excluded here), relevance ranking and truncation: the result is the
`maxCandidates`-truncation of a descending-by-score, permutation-exact
ordering of exactly the entries passing the three filters. -/
theorem c2_pipeline (entries : List Entry) (fam : String)
    (allow : List String) (ctx : String) (maxC : Nat) :
    getCandidatesForAutoselect entries fam allow ctx maxC
      = (rankCandidatesByRelevance ctx (filterNonCharacter
          (if allow.isEmpty then filterByBaseModel entries fam
            else filterByAllowlist (filterByBaseModel entries fam) allow))).take
          maxC ∧
    (rankCandidatesByRelevance ctx (filterNonCharacter
        (if allow.isEmpty then filterByBaseModel entries fam
          else filterByAllowlist (filterByBaseModel entries fam) allow))).Perm
      (filterNonCharacter
        (if allow.isEmpty then filterByBaseModel entries fam
          else filterByAllowlist (filterByBaseModel entries fam) allow)) ∧
    (∀ e : Entry, e ∈ rankCandidatesByRelevance ctx (filterNonCharacter
        (if allow.isEmpty then filterByBaseModel entries fam
          else filterByAllowlist (filterByBaseModel entries fam) allow)) ↔
      (e ∈ entries ∧ isCompatible e.base_compat fam = true ∧
        (allow.isEmpty = true ∨
          (normalizeAllowlist allow).contains e.file = true) ∧
        e.is_character = false)) ∧
    List.Sorted (fun a b : Rat => b ≤ a)
      ((rankCandidatesByRelevance ctx (filterNonCharacter
          (if allow.isEmpty then filterByBaseModel entries fam
            else filterByAllowlist (filterByBaseModel entries fam) allow))).map
        (relevanceScore ctx)) := by
  refine ⟨rfl, rankCandidates_perm ctx _, ?_, rankCandidates_sorted ctx _⟩
  intro e
  rw [(rankCandidates_perm ctx _).mem_iff]
  unfold filterNonCharacter filterByAllowlist filterByBaseModel
  cases hallow : allow.isEmpty with
  | true =>
      rw [if_pos rfl]
      rw [List.mem_filter, List.mem_filter]
      simp [Bool.not_eq_true', and_assoc]
  | false =>
      rw [if_neg Bool.false_ne_true, if_neg Bool.false_ne_true]
      rw [List.mem_filter, List.mem_filter, List.mem_filter]
      simp [Bool.not_eq_true', and_assoc]

/-- C2 (witness).  The pipeline facts at a concrete input: the single
compatible non-character entry is returned. -/
theorem c2_pipeline_witness :
    sdxlEntry ∈ rankCandidatesByRelevance "" (filterNonCharacter
      (if ([] : List String).isEmpty then filterByBaseModel [sdxlEntry] "SDXL 1.0"
        else filterByAllowlist (filterByBaseModel [sdxlEntry] "SDXL 1.0") [])) :=
  ((c2_pipeline [sdxlEntry] "SDXL 1.0" [] "" 30).2.2.1 sdxlEntry).mpr
    ⟨List.mem_singleton.mpr rfl, by decide, Or.inl rfl, rfl⟩

/-!  C4 (witness).  -/

/-- C4 (witness).  Re-indexing the already-catalogued file refreshes
only availability and path at a concrete catalog. -/
theorem c4_index_basic_idempotent_witness :
    (indexLoraBasic wordCatalog wordFile "h1" stEmpty none none "t1").1 = "h1" ∧
    catGet (indexLoraBasic wordCatalog wordFile "h1" stEmpty none none "t1").2 "h1"
      = some { wordEntry with available := true, full_path := wordFile.path } :=
  ⟨(c4_index_basic_idempotent wordCatalog wordFile "h1" stEmpty none none "t1"
      wordEntry (by with_unfolding_all rfl) (by decide)).1,
   (c4_index_basic_idempotent wordCatalog wordFile "h1" stEmpty none none "t1"
      wordEntry (by with_unfolding_all rfl) (by decide)).2.2.2.1⟩

/-!  C7.  The 404 marker cache.  -/

/-- Stripping is the identity on a tag-free hash. -/
theorem stripShaTag_of_clean (h : String)
    (hclean : headsWith h "sha256:" = false) : stripShaTag h = h := by
  unfold stripShaTag
  rw [hclean]
  rfl

/-- Looking a key up right after saving under it returns the saved
payload (tag-free key). -/
theorem getCached_after_save (cache : CivCache) (k : String) (m : Json)
    (hk : headsWith k "sha256:" = false) (sh : String)
    (hsh : stripShaTag sh = k) :
    getCachedCivitaiData (saveCivitaiCache cache k m) sh = some m := by
  unfold getCachedCivitaiData saveCivitaiCache
  rw [hsh, stripShaTag_of_clean k hk]
  by_cases hmem : cache.any (fun kv => kv.1 == k)
  · rw [if_pos hmem]
    induction cache with
    | nil => exact absurd hmem (by simp)
    | cons kv rest ih =>
        by_cases hkk : kv.1 == k
        · simp [List.find?, hkk]
        · have hmem' : rest.any (fun kv => kv.1 == k) = true := by
            have := List.any_eq_true.mp hmem
            obtain ⟨x, hx, hpx⟩ := this
            rcases List.mem_cons.mp hx with rfl | hx'
            · exact absurd hpx (by simpa using hkk)
            · exact List.any_eq_true.mpr ⟨x, hx', hpx⟩
          have := ih hmem'
          simpa [List.find?, hkk] using this
  · rw [if_neg hmem]
    induction cache with
    | nil => simp [List.find?]
    | cons kv rest ih =>
        have hkk : (kv.1 == k) = false := by
          by_contra hc
          exact hmem (List.any_eq_true.mpr
            ⟨kv, List.mem_cons_self kv rest, by simpa using hc⟩)
        have hmem' : ¬ rest.any (fun kv => kv.1 == k) = true := fun hc => by
          obtain ⟨x, hx, hpx⟩ := List.any_eq_true.mp hc
          exact hmem (List.any_eq_true.mpr ⟨x, List.mem_cons_of_mem kv hx, hpx⟩)
        have := ih hmem'
        simpa [List.find?, hkk] using this

/-- C7 (amended).  After a cache miss answered by HTTP 404, the fetch
returns no payload having issued exactly the hash-lookup request and
caches the permanent `not_found` marker; every subsequent call for the
same identifier issues no network request, but returns the cached
marker object (which carries the `error` key that all callers treat as
the no-payload outcome) rather than null. -/
theorem c7_fetch_404_caches_marker (net : String → NetResp)
    (cache : CivCache) (shaHash : String)
    (hclean : headsWith (stripShaTag shaHash) "sha256:" = false)
    (hmiss : truthyOpt (getCachedCivitaiData cache shaHash) = false)
    (hnet : net (CIVITAI_API_BASE ++ "/model-versions/by-hash/"
      ++ stripShaTag shaHash) = .notFound) :
    fetchCivitaiByHash net cache shaHash
      = (none,
         saveCivitaiCache cache (stripShaTag shaHash)
           (notFoundMarker (stripShaTag shaHash)),
         [CIVITAI_API_BASE ++ "/model-versions/by-hash/"
           ++ stripShaTag shaHash]) ∧
    getCachedCivitaiData
        (saveCivitaiCache cache (stripShaTag shaHash)
          (notFoundMarker (stripShaTag shaHash))) shaHash
      = some (notFoundMarker (stripShaTag shaHash)) ∧
    jsonHasKey (notFoundMarker (stripShaTag shaHash)) "error" = true ∧
    fetchCivitaiByHash net
        (saveCivitaiCache cache (stripShaTag shaHash)
          (notFoundMarker (stripShaTag shaHash))) shaHash
      = (some (notFoundMarker (stripShaTag shaHash)),
         saveCivitaiCache cache (stripShaTag shaHash)
           (notFoundMarker (stripShaTag shaHash)),
         []) := by
  have hcached := getCached_after_save cache (stripShaTag shaHash)
    (notFoundMarker (stripShaTag shaHash)) hclean shaHash rfl
  refine ⟨?_, hcached, rfl, ?_⟩
  · unfold fetchCivitaiByHash
    dsimp only
    rw [hmiss, if_neg (by decide), hnet]
  · unfold fetchCivitaiByHash
    dsimp only
    rw [hcached]
    rfl

/-- C7 (witness).  The 404-then-cached behaviour at a concrete network
oracle, empty cache and hash. -/
theorem c7_fetch_404_caches_marker_witness :
    fetchCivitaiByHash notFoundNet [] "sha256:deadbeef"
      = (none,
         saveCivitaiCache [] (stripShaTag "sha256:deadbeef")
           (notFoundMarker (stripShaTag "sha256:deadbeef")),
         [CIVITAI_API_BASE ++ "/model-versions/by-hash/"
           ++ stripShaTag "sha256:deadbeef"]) ∧
    fetchCivitaiByHash notFoundNet
        (saveCivitaiCache [] (stripShaTag "sha256:deadbeef")
          (notFoundMarker (stripShaTag "sha256:deadbeef"))) "sha256:deadbeef"
      = (some (notFoundMarker (stripShaTag "sha256:deadbeef")),
         saveCivitaiCache [] (stripShaTag "sha256:deadbeef")
           (notFoundMarker (stripShaTag "sha256:deadbeef")),
         []) :=
  ⟨(c7_fetch_404_caches_marker notFoundNet [] "sha256:deadbeef"
      (by decide) (by decide) (by with_unfolding_all rfl)).1,
   (c7_fetch_404_caches_marker notFoundNet [] "sha256:deadbeef"
      (by decide) (by decide) (by with_unfolding_all rfl)).2.2.2⟩

/-- C7 (counterexample).  The call following the cached 404 issues no
request but returns the marker object, not the claimed null. -/
theorem c7_counterexample :
    fetchCivitaiByHash notFoundNet
        [("deadbeef", notFoundMarker "deadbeef")] "sha256:deadbeef"
      = (some (notFoundMarker "deadbeef"),
         [("deadbeef", notFoundMarker "deadbeef")], []) ∧
    some (notFoundMarker "deadbeef") ≠ (none : Option Json) :=
  ⟨by with_unfolding_all rfl, by simp⟩

/-!  C8.  Vision capability mismatch.  -/

/-- Every event emitted by the gallery-preparation loop is an image
download; the loop never reaches an LLM generation call. -/
theorem prepGalleryAux_events_imgDownload (fe : String → Bool)
    (dl : String → String → Nat → DownloadOut)
    (li : String → Bool) (ck : String) (entries : List GalleryImage) :
    ∀ (idx : Nat) (ev : LlmEvent),
      ev ∈ (prepGalleryAux fe dl li ck idx entries).2.2 →
      ∃ u, ev = LlmEvent.imgDownload u := by
  induction entries with
  | nil =>
      intro idx ev hev
      exact absurd hev (by simp [prepGalleryAux])
  | cons e rest ih =>
      intro idx ev hev
      simp only [prepGalleryAux] at hev
      rcases List.mem_append.mp hev with h1 | h2
      · repeat' split at h1
        all_goals first
          | exact absurd h1 (List.not_mem_nil ev)
          | exact ⟨e.url, List.mem_singleton.mp h1⟩
      · exact ih (idx + 1) ev h2

/-- Events of `prepare_gallery_images` are image downloads only. -/
theorem prepareGalleryImages_events_imgDownload (fe : String → Bool)
    (dl : String → String → Nat → DownloadOut)
    (li : String → Bool) (ie : Option (List GalleryImage)) (ck : String)
    (ev : LlmEvent)
    (hev : ev ∈ (prepareGalleryImages fe dl li ie ck).2.2) :
    ∃ u, ev = LlmEvent.imgDownload u := by
  cases ie with
  | none => exact absurd hev (by simp [prepareGalleryImages])
  | some entries =>
      by_cases he : entries.isEmpty = true
      · exact absurd hev (by simp [prepareGalleryImages, he])
      · unfold prepareGalleryImages at hev
        dsimp only at hev
        rw [if_neg he] at hev
        dsimp only at hev
        exact prepGalleryAux_events_imgDownload fe dl li ck (entries.take 5) 1 ev hev

/-- C8 (amended).  When the prepared gallery is non-empty and the
selected model lacks vision support, `index_with_llm` returns the
hard failure result without attempting any generation call — neither
vision nor text-only — but this happens only after the gallery
preparation step, whose image downloads may already have issued
network requests; the trace of the call is exactly the preparation
trace, which holds image downloads only. -/
theorem c8_vision_mismatch_fails_before_llm (providerName : String)
    (supportsVision : String → Bool)
    (genText : String → Bool × String × String)
    (genVision : String → List String → Bool × String × String)
    (jloads : String → Option Json) (fileExists : String → Bool)
    (download : String → String → Nat → DownloadOut)
    (loadImage : String → Bool) (civitaiText modelName : String)
    (knownFamilies : List String) (filename : String)
    (imageEntries : Option (List GalleryImage)) (cacheKey : Option String)
    (hprov : (pyLower providerName == "groq"
      || pyLower providerName == "gemini") = true)
    (hnov : supportsVision modelName = false)
    (himg : (prepareGalleryImages fileExists download loadImage imageEntries
      (galleryKeyOf cacheKey filename)).1.isEmpty = false) :
    indexWithLLM providerName true supportsVision genText genVision jloads
        fileExists download loadImage civitaiText modelName knownFamilies
        filename imageEntries cacheKey
      = .ok ((false, none,
          "Model " ++ modelName ++
            " does not support vision. Please select a vision-capable model for indexing."),
          (prepareGalleryImages fileExists download loadImage imageEntries
            (galleryKeyOf cacheKey filename)).2.2) ∧
    LlmEvent.llmVision ∉ (prepareGalleryImages fileExists download loadImage
      imageEntries (galleryKeyOf cacheKey filename)).2.2 ∧
    LlmEvent.llmText ∉ (prepareGalleryImages fileExists download loadImage
      imageEntries (galleryKeyOf cacheKey filename)).2.2 := by
  refine ⟨?_, ?_, ?_⟩
  · unfold indexWithLLM
    dsimp only
    rw [hprov, if_neg (by decide), if_neg (by decide), himg,
      if_pos (by decide), hnov, if_pos (by decide)]
  · intro hmem
    obtain ⟨u, hu⟩ := prepareGalleryImages_events_imgDownload fileExists
      download loadImage imageEntries (galleryKeyOf cacheKey filename)
      LlmEvent.llmVision hmem
    exact LlmEvent.noConfusion hu
  · intro hmem
    obtain ⟨u, hu⟩ := prepareGalleryImages_events_imgDownload fileExists
      download loadImage imageEntries (galleryKeyOf cacheKey filename)
      LlmEvent.llmText hmem
    exact LlmEvent.noConfusion hu

/-- C8 (witness).  The mismatch failure at a concrete cached-gallery
scenario whose preparation trace is empty, so the whole call issues no
request at all. -/
theorem c8_vision_mismatch_fails_before_llm_witness :
    indexWithLLM "groq" true noVision neverGen neverGenVision (fun _ => none)
        cachedFs idleDownload alwaysLoad "ctext" "m" [] "f"
        (some [cachedGalleryEntry]) none
      = .ok ((false, none,
          "Model " ++ "m" ++
            " does not support vision. Please select a vision-capable model for indexing."),
          (prepareGalleryImages cachedFs idleDownload alwaysLoad
            (some [cachedGalleryEntry]) (galleryKeyOf none "f")).2.2) ∧
    (prepareGalleryImages cachedFs idleDownload alwaysLoad
      (some [cachedGalleryEntry]) (galleryKeyOf none "f")).2.2 = [] :=
  ⟨(c8_vision_mismatch_fails_before_llm "groq" noVision neverGen neverGenVision
      (fun _ => none) cachedFs idleDownload alwaysLoad "ctext" "m" [] "f"
      (some [cachedGalleryEntry]) none (by decide) rfl
      (by with_unfolding_all rfl)).1,
   by with_unfolding_all rfl⟩

/-- C8 (counterexample).  With a fresh gallery entry the image download
issues a network request before the vision check rejects the model, so
the failure is not "before any network call": the trace of the failing
call is non-empty. -/
theorem c8_counterexample :
    indexWithLLM "groq" true noVision neverGen neverGenVision (fun _ => none)
        (fun _ => false) netDownload alwaysLoad "ctext" "m" [] "f"
        (some [freshGalleryEntry]) none
      = .ok ((false, none,
          "Model m does not support vision. Please select a vision-capable model for indexing."),
          [LlmEvent.imgDownload "https://img.example/1.png"]) ∧
    [LlmEvent.imgDownload "https://img.example/1.png"] ≠ ([] : List LlmEvent) :=
  ⟨by with_unfolding_all rfl, by simp⟩
